import Mathlib

/-!
# daemon-skeleton: the logging core (`logging.h`, `logging.c`) and `parseConfigFile`

A shallow embedding of the run-time logger: the per-site filter `logCheck`, the
destination dispatcher (`initLogging`, `startLogging`, `stopLogging`), the
formatter (`_log`, `_logWithLocation`) and the call tracer
(`__cyg_profile_func_enter`, `__cyg_profile_func_exit`); and of the loop of
`parseConfigFile` (`config.c`) that turns a configuration file into arguments.

Conventions of the embedding:

* `unsigned int` values are `Nat`, `int` values are `Int`, and `++gCallDepth` does
  not overflow;
* a C pointer to a byte array is `Option (List Nat)`: `none` is `NULL`, and a read
  outside the allocated array has no defined value (`none`);
* the C library and the operating system are a record of oracles (`Libc`), and every
  call that opens, closes or writes a log destination is appended to the `events` of
  the state, oldest first;
* the parts generated by the Makefile (`obj/logscopes.inc`, `obj/logscopedefs.inc`,
  the `-DLOG_SCOPE` of `logging.c`) are the fields of `Build`.
-/

namespace DaemonSkeleton

/-! ## Data model (`logging.h`) -/

/-- The struct `gLogEntry` of `logging.h`: the level of a scope, the number of its
sites, and the pointer to its array of per-site suppression bytes. -/
structure gLogEntry where
  level : Nat
  max : Nat
  site : Option (List Nat)
  deriving DecidableEq, Repr

/-- The syslog priorities behind `kLogEmergency` .. `kLogDebug`. -/
def kLogEmergency : Nat := 0
def kLogAlert : Nat := 1
def kLogCritical : Nat := 2
def kLogError : Nat := 3
def kLogWarning : Nat := 4
def kLogNotice : Nat := 5
def kLogInfo : Nat := 6
def kLogDebug : Nat := 7

/-- The C expression `site[id]` for `unsigned char *site`: the byte read, or `none`
when `site` is `NULL` or `id` is outside the allocated array. -/
def readSite (site : Option (List Nat)) (id : Nat) : Option Nat :=
  match site with
  | none => none
  | some bytes => bytes[id]?

/-- The macro `logCheck(priority, scope, id)`:
`gLogLevel >= priority && gLog[scope].max > id && gLog[scope].level >= priority
 && gLog[scope].site[id] == 0`, with the left-to-right short circuit of `&&`.
The result is `none` when the evaluation reads outside the site array. -/
def logCheck (gLogLevel : Nat) (gLog : Nat → gLogEntry) (priority scope id : Nat) :
    Option Bool :=
  if gLogLevel ≥ priority then
    if (gLog scope).max > id then
      if (gLog scope).level ≥ priority then
        match readSite (gLog scope).site id with
        | none => none
        | some b => some (b == 0)
      else some false
    else some false
  else some false

/-- The C assignment `gLog[scope].site[id] = v`, for `id` inside the allocated array;
`v` is the byte stored. -/
def setSite (gLog : Nat → gLogEntry) (scope id v : Nat) : Nat → gLogEntry :=
  Function.update gLog scope
    { gLog scope with site := (gLog scope).site.map (fun bytes => bytes.set id v) }

/-! ## The dispatcher state (`logging.c`) -/

/-- The enum `eLogDestination` of `logging.h`. -/
inductive eLogDestination
  | kLogToUndefined
  | kLogToSyslog
  | kLogToFile
  | kLogToStderr
  deriving DecidableEq, Repr

/-- The values a `FILE *` takes in `logging.c`: `NULL`, the standard error stream, or
a stream returned by a successful `fopen` (told apart by `id`). -/
inductive FILE
  | NULL
  | stderr
  | opened (id : Nat)
  deriving DecidableEq, Repr

/-- The functions `gLogString` (type `fpLogTo`) is ever made to point at. -/
inductive fpLogTo
  | _logToTheVoid
  | _logToSyslog
  | _logToFile
  | _logToStderr
  deriving DecidableEq, Repr

/-- A call into the C library that opens, closes or writes a log destination. -/
inductive Event
  | setlogmask (mask : Nat)
  | openlog (ident : String)
  | closelog
  | fopen (path : String) (result : FILE)
  | fclose (stream : FILE)
  | syslog (priority : Nat) (msg : String)
  | fprintf (stream : FILE) (text : String)
  deriving DecidableEq, Repr

/-- The behaviour of the C library at the time of a call: what `fopen(path, "a")`
returns (`none` is `NULL`, `some id` a new stream), the `errno` a failed `fopen`
leaves, `strerror`, what `dlopen(NULL, RTLD_LAZY)` returns, and the symbol name
`dladdr` finds for an address (`none` is a `NULL` `dli_sname`). -/
structure Libc where
  fopen : String → Option Nat
  errno : Nat
  strerror : Nat → String
  dlopen : Option Nat
  dladdr : Nat → Option String

/-- What the Makefile generates or passes for `logging.c`: the number of scopes
`kMaxLogScope` (`obj/logscopes.inc`), the scope `kLog_<LOG_SCOPE>` and the `__FILE__`
of `logging.c`, and `logScopeNames` and `logLogInit` (`obj/logscopedefs.inc`); of
`logLogInit` only that it works on the scope table `gLog` is assumed. -/
structure Build where
  kMaxLogScope : Nat
  LOG_SCOPE : Nat
  FILE__ : String
  logScopeNames : Nat → String
  logLogInit : (Nat → gLogEntry) → (Nat → gLogEntry)

/-- The globals of `logging.c`, and the calls made so far (`events`, oldest first). -/
structure Globals where
  gLog : Nat → gLogEntry
  gLogString : fpLogTo
  gLogDestination : eLogDestination
  gLogLevel : Nat
  gLogName : String
  gLogFile : FILE
  gDLhandle : Option Nat
  gFunctionTraceEnabled : Int
  gCallDepth : Int
  events : List Event

/-- Whether a call writes a message to a log destination. -/
def Event.isWrite : Event → Bool
  | Event.syslog _ _ => true
  | Event.fprintf _ _ => true
  | _ => false

/-- How a function that does not return normally stops: `exit(status)`, or a read
outside a site array. -/
inductive Stop
  | exit (status : Nat)
  | invalidRead
  deriving DecidableEq, Repr

def ENOMEM : Nat := 12

/-- The string `leader`: 90 dots. -/
def leader : String := String.mk (List.replicate 90 '.')

/-! ## Writers -/

/-- `_logToTheVoid`: just return. -/
def _logToTheVoid (_priority : Nat) (_msg : String) (s : Globals) : Globals := s

/-- `_logToSyslog`: `syslog( priority, msg )`. -/
def _logToSyslog (priority : Nat) (msg : String) (s : Globals) : Globals :=
  { s with events := s.events ++ [Event.syslog priority msg] }

/-- `_logToFile`: `fprintf(gLogFile, "%s\n", msg)`. -/
def _logToFile (_priority : Nat) (msg : String) (s : Globals) : Globals :=
  { s with events := s.events ++ [Event.fprintf s.gLogFile (msg ++ "\n")] }

/-- `_logToStderr`: `fprintf(stderr, "%s\n", msg)`. -/
def _logToStderr (_priority : Nat) (msg : String) (s : Globals) : Globals :=
  { s with events := s.events ++ [Event.fprintf FILE.stderr (msg ++ "\n")] }

/-- The call `gLogString(priority, msg)` through the function pointer. -/
def callLogString (priority : Nat) (msg : String) (s : Globals) : Globals :=
  match s.gLogString with
  | fpLogTo._logToTheVoid => _logToTheVoid priority msg s
  | fpLogTo._logToSyslog => _logToSyslog priority msg s
  | fpLogTo._logToFile => _logToFile priority msg s
  | fpLogTo._logToStderr => _logToStderr priority msg s

/-! ## Formatter -/

/-- The C string `snprintf(buf, size, ...)` leaves in `buf` when the full rendering is
`text`: its first `size - 1` characters. -/
def snprintf (size : Nat) (text : String) : String :=
  String.mk (text.data.take (size - 1))

/-- The `_log` function: `vsnprintf( msg, sizeof(msg), format, vaptr )` into `char msg[256]`,
then `gLogString(priority, msg)`; `rendered` is the full rendering of the format
and its arguments. -/
def _log (priority : Nat) (rendered : String) (s : Globals) : Globals :=
  callLogString priority (snprintf 256 rendered) s

/-- The contents of `msg` when `_logWithLocation` hands it to the writer: the message
is rendered into `char msg[256]`, `prefixLen` is the length of the full rendering
`rendered`, `remaining = sizeof(msg) - prefixLen - 1` (an `int`, negative when the rendering is
longer than the buffer), and when `remaining > 10` the text `" (%s:%d)"` is written
at `&msg[prefixLen]` with size `remaining`. -/
def locatedMsg (inFile : String) (atLine : Nat) (rendered : String) : String :=
  let msg := snprintf 256 rendered
  let prefixLen : Int := rendered.length
  let remaining : Int := 256 - prefixLen - 1
  if remaining > 10 then
    String.mk (msg.data.take prefixLen.toNat) ++
      snprintf remaining.toNat (" (" ++ inFile ++ ":" ++ toString atLine ++ ")")
  else msg

/-- The `_logWithLocation` function: `msg` is filled as `locatedMsg` describes, then
`gLogString(priority, msg)`. -/
def _logWithLocation (inFile : String) (atLine priority : Nat) (rendered : String)
    (s : Globals) : Globals :=
  callLogString priority (locatedMsg inFile atLine rendered) s

/-- The macro `log(priority, ...)` at site `id` of scope `scope`:
`if ( logCheck( priority, LOG_SCOPE, __COUNTER__ ) ) _log( priority, ... )`. -/
def log (priority scope id : Nat) (rendered : String) (s : Globals) : Except Stop Globals :=
  match logCheck s.gLogLevel s.gLog priority scope id with
  | none => Except.error Stop.invalidRead
  | some true => Except.ok (_log priority rendered s)
  | some false => Except.ok s

/-- The macro `logWithLocation(priority, ...)` at site `id` of scope `scope`, in file
`inFile` at line `atLine`. -/
def logWithLocation (inFile : String) (atLine priority scope id : Nat) (rendered : String)
    (s : Globals) : Except Stop Globals :=
  match logCheck s.gLogLevel s.gLog priority scope id with
  | none => Except.error Stop.invalidRead
  | some true => Except.ok (_logWithLocation inFile atLine priority rendered s)
  | some false => Except.ok s

/-! ## Dispatcher

`logging.c` holds three logging statements, which `__COUNTER__` numbers in order
(without `RELEASE_BUILD`): `logCritical` at line 108 is site 0, `logDebug` at line 112
is site 1, `logError` at line 152 is site 2. -/

/-- The text of the failure notice of `startLogging`:
`"Unable to log to \"%s\" (%s [%d]), redirecting to stderr"`. -/
def unableToLog (libc : Libc) (logFile : String) : String :=
  "Unable to log to \"" ++ logFile ++ "\" (" ++ libc.strerror libc.errno ++ " [" ++
    toString libc.errno ++ "]), redirecting to stderr"

/-- The `stopLogging` function. -/
def stopLogging (s : Globals) : Globals :=
  let s :=
    match s.gLogDestination with
    | eLogDestination.kLogToSyslog => { s with events := s.events ++ [Event.closelog] }
    | eLogDestination.kLogToFile =>
        { s with events := s.events ++ [Event.fclose s.gLogFile], gLogFile := FILE.stderr }
    | _ => s
  { s with gLogDestination := eLogDestination.kLogToUndefined }

/-- The `startLogging` function; `logFile` is `none` for a `NULL` path. The `default:`
label of the `switch` is the case of `kLogToUndefined`, the one enumerator without a
label of its own. -/
def startLogging (libc : Libc) (b : Build) (debugLevel : Nat) (logDest : eLogDestination)
    (logFile : Option String) (s : Globals) : Except Stop Globals :=
  let s := { s with gLogLevel := debugLevel }
  if logDest ≠ s.gLogDestination then
    let s := stopLogging s
    match logDest with
    | eLogDestination.kLogToSyslog =>
        let s := { s with events := s.events ++ [Event.setlogmask 255, Event.openlog s.gLogName] }
        let s := { s with gLogString := fpLogTo._logToSyslog }
        Except.ok { s with gLogDestination := eLogDestination.kLogToSyslog }
    | eLogDestination.kLogToFile =>
        let s := { s with gLogString := fpLogTo._logToStderr }
        match logFile with
        | none => Except.ok { s with gLogDestination := eLogDestination.kLogToFile }
        | some path =>
            match libc.fopen path with
            | some id =>
                let s := { s with gLogFile := FILE.opened id,
                                  events := s.events ++ [Event.fopen path (FILE.opened id)] }
                let s := { s with gLogString := fpLogTo._logToFile }
                Except.ok { s with gLogDestination := eLogDestination.kLogToFile }
            | none =>
                let s := { s with gLogFile := FILE.NULL,
                                  events := s.events ++ [Event.fopen path FILE.NULL] }
                match logWithLocation b.FILE__ 152 kLogError b.LOG_SCOPE 2
                    (unableToLog libc path) s with
                | Except.error e => Except.error e
                | Except.ok s => Except.ok { s with gLogDestination := eLogDestination.kLogToStderr }
    | eLogDestination.kLogToStderr =>
        let s := { s with gLogString := fpLogTo._logToStderr }
        Except.ok { s with gLogDestination := eLogDestination.kLogToStderr }
    | eLogDestination.kLogToUndefined =>
        let s := { s with gLogString := fpLogTo._logToTheVoid }
        Except.ok { s with gLogDestination := eLogDestination.kLogToUndefined }
  else Except.ok s

/-- The `for` loop of `initLogging` from scope `i` on, with `n` scopes left
(`n = kMaxLogScope - i`). -/
def initLoggingLoop (b : Build) : Nat → Nat → Globals → Except Stop Globals
  | 0, _, s => Except.ok s
  | n + 1, i, s =>
      let s := { s with gLog := Function.update s.gLog i { s.gLog i with level := kLogDebug } }
      if (s.gLog i).site = none then
        match logWithLocation b.FILE__ 108 kLogCritical b.LOG_SCOPE 0
            "### Failed to allocate memory for logging - exiting\n" s with
        | Except.error e => Except.error e
        | Except.ok _ => Except.error (Stop.exit ENOMEM)
      else
        match logWithLocation b.FILE__ 112 kLogDebug b.LOG_SCOPE 1
            (b.logScopeNames i ++ " scope has " ++ toString (s.gLog i).max ++ " log statements")
            s with
        | Except.error e => Except.error e
        | Except.ok s => initLoggingLoop b n (i + 1) s

/-- The `logFunctionTraceOn` function. -/
def logFunctionTraceOn (s : Globals) : Globals := { s with gFunctionTraceEnabled := 1 }

/-- The `logFunctionTraceOff` function. -/
def logFunctionTraceOff (s : Globals) : Globals := { s with gFunctionTraceEnabled := 0 }

/-- The `initLogging` function. -/
def initLogging (libc : Libc) (b : Build) (name : String) (s : Globals) :
    Except Stop Globals :=
  let s := { s with gLogName := name }
  let s := { s with gLogDestination := eLogDestination.kLogToUndefined,
                    gLogLevel := kLogDebug,
                    gLogFile := FILE.stderr,
                    gLogString := fpLogTo._logToStderr }
  let s := { s with gDLhandle := libc.dlopen }
  let s := { s with gLog := b.logLogInit s.gLog }
  match initLoggingLoop b b.kMaxLogScope 0 s with
  | Except.error e => Except.error e
  | Except.ok s => if s.gDLhandle ≠ none then Except.ok (logFunctionTraceOn s) else Except.ok s

/-! ## Call tracer -/

/-- The rendering of `"0x%08lx"`: lower-case hexadecimal, at least 8 digits. -/
def hex08 (addr : Nat) : String :=
  let digits := Nat.toDigits 16 addr
  "0x" ++ String.mk (List.replicate (8 - digits.length) '0' ++ digits)

/-- The `addrToString` function: the symbol name `dladdr` finds, else the address in
hexadecimal. -/
def addrToString (libc : Libc) (addr : Nat) (s : Globals) : String :=
  let str := if s.gDLhandle ≠ none then libc.dladdr addr else none
  match str with
  | some name => name
  | none => hex08 addr

/-- The rendering of `"%.*s"` with precision `precision` and argument `str`: at most
`precision` characters of `str`, all of it when the precision is negative. -/
def precisionString (precision : Int) (str : String) : String :=
  if precision < 0 then str else String.mk (str.data.take precision.toNat)

/-- The `_profileHelper` function. -/
def _profileHelper (libc : Libc) (left : Nat) (middle : String) (right : Nat)
    (s : Globals) : Globals :=
  if s.gFunctionTraceEnabled ≠ 0 ∧ s.gLogDestination ≠ eLogDestination.kLogToUndefined then
    let msg := snprintf 256
      (precisionString s.gCallDepth leader ++ " " ++ addrToString libc left s ++ "() " ++
        middle ++ " " ++ addrToString libc right s ++ "()")
    callLogString kLogDebug msg s
  else s

/-- The hook `__cyg_profile_func_enter`: just landed in a function. -/
def __cyg_profile_func_enter (libc : Libc) (this_fn call_site : Nat) (s : Globals) : Globals :=
  let s := _profileHelper libc call_site "called" this_fn s
  { s with gCallDepth := s.gCallDepth + 1 }

/-- The hook `__cyg_profile_func_exit`: about to leave a function. -/
def __cyg_profile_func_exit (libc : Libc) (this_fn call_site : Nat) (s : Globals) : Globals :=
  let s := { s with gCallDepth := s.gCallDepth - 1 }
  let s := if s.gCallDepth < 1 then { s with gCallDepth := 1 } else s
  _profileHelper libc this_fn "returned to" call_site s

/-- A call of one of the two hooks gcc inserts, with its arguments. -/
inductive Hook
  | enter (this_fn call_site : Nat)
  | exit (this_fn call_site : Nat)
  deriving DecidableEq, Repr

/-- The effect of one hook call. -/
def runHook (libc : Libc) : Hook → Globals → Globals
  | Hook.enter this_fn call_site, s => __cyg_profile_func_enter libc this_fn call_site s
  | Hook.exit this_fn call_site, s => __cyg_profile_func_exit libc this_fn call_site s

/-- The effect of a sequence of hook calls, first to last. -/
def runHooks (libc : Libc) (hooks : List Hook) (s : Globals) : Globals :=
  hooks.foldl (fun s h => runHook libc h s) s

/-- The number of functions entered and not yet left after `hooks`, starting from `open_`
such functions; `none` when some exit has no matching enter. -/
def nesting : List Hook → Nat → Option Nat
  | [], open_ => some open_
  | Hook.enter _ _ :: hooks, open_ => nesting hooks (open_ + 1)
  | Hook.exit _ _ :: _, 0 => none
  | Hook.exit _ _ :: hooks, open_ + 1 => nesting hooks open_

/-- The state in which a hook calls `_profileHelper`: `__cyg_profile_func_enter` calls it
first, in the state it is entered with; `__cyg_profile_func_exit` calls it after
`--gCallDepth` and the clamp `if (gCallDepth < 1) gCallDepth = 1`. -/
def helperState : Hook → Globals → Globals
  | Hook.enter _ _, s => s
  | Hook.exit _ _, s =>
      let s := { s with gCallDepth := s.gCallDepth - 1 }
      if s.gCallDepth < 1 then { s with gCallDepth := 1 } else s

/-- The line `_profileHelper` formats into `char msg[256]`:
`"%.*s %s() %s %s()"` with `gCallDepth`, `leader`, and the two addresses as strings. -/
def traceLine (libc : Libc) (left : Nat) (middle : String) (right : Nat) (s : Globals) :
    String :=
  snprintf 256
    (precisionString s.gCallDepth leader ++ " " ++ addrToString libc left s ++ "() " ++
      middle ++ " " ++ addrToString libc right s ++ "()")

/-- The indentation of a trace line: `n` characters of `leader`, which are dots. -/
def dots (n : Nat) : String := String.mk (List.replicate n '.')

/-- The text `" (%s:%d)"` of `_logWithLocation` for a file and a line. -/
def locationSuffix (inFile : String) (atLine : Nat) : String :=
  " (" ++ inFile ++ ":" ++ toString atLine ++ ")"

/-- The writes `_logWithLocation` makes into `char msg[256]`, each as the offset of its
first byte and the number of bytes written, the terminating NUL included:
`vsnprintf( msg, sizeof(msg), ... )` at offset 0 and, when `remaining > 10`,
`snprintf( &msg[prefixLen], remaining, " (%s:%d)", ... )` at offset `prefixLen`. -/
def locatedMsgWrites (inFile : String) (atLine : Nat) (rendered : String) :
    List (Nat × Nat) :=
  let prefixLen : Int := rendered.length
  let remaining : Int := 256 - prefixLen - 1
  (0, (snprintf 256 rendered).length + 1) ::
    (if remaining > 10 then
      [(prefixLen.toNat, (snprintf remaining.toNat (locationSuffix inFile atLine)).length + 1)]
     else [])

/-! ## Configuration file (`config.c`)

The file is the list of the characters not yet read; a C string is a run of characters
of a buffer up to the next NUL. Of `parseConfigFile` the part that builds `argv` for
`poptGetContext` is embedded; popt itself is a library. -/

/-- The size `ARGV_SIZE` of `argv`. -/
def ARGV_SIZE : Nat := 100

/-- The character NUL. -/
def NUL : Char := Char.ofNat 0

/-- The delimiters `"= \t\n\r"` given to `strtok_r`. -/
def delimiters : List Char := ['=', ' ', '\t', '\n', '\r']

/-- How the loop of `parseConfigFile` leaves defined behaviour: `strlen` runs past the
end of `line`, `strcpy` and `strcat` write `written` bytes into a block of `size` bytes,
or `argv[argc]` is assigned with `argc >= ARGV_SIZE`; `outOfFuel` is the fuel of the
embedding running out. -/
inductive Fault
  | readPastLine
  | heapOverflow (size written : Nat)
  | argvOverflow
  | outOfFuel
  deriving DecidableEq, Repr

/-- What one `fgets` call with room for `room` characters takes from the file: the
characters stored, the file left, and whether the call met the end of the file (the
end-of-file indicator `feof` tests). It stops after a newline or when the room is
used up, without looking further. -/
def fgetsScan : Nat → List Char → List Char × List Char × Bool
  | 0, stream => ([], stream, false)
  | _ + 1, [] => ([], [], true)
  | room + 1, c :: stream =>
      if c = '\n' then ([c], stream, false)
      else
        let r := fgetsScan room stream
        (c :: r.1, r.2.1, r.2.2)

/-- The C string at offset `off` of a buffer: the characters before the next NUL. -/
def cString (buf : List Char) (off : Nat) : List Char :=
  (buf.drop off).takeWhile (fun c => c ≠ NUL)

/-- The call `strlen(&buf[off])`; `none` when no NUL follows inside the buffer. -/
def strlen (buf : List Char) (off : Nat) : Option Nat :=
  if NUL ∈ buf.drop off then some (cString buf off).length else none

/-- The call `strtok_r(s, "= \t\n\r", &saved)` with `s` (or, for a `NULL` `s`, `saved`) at
offset `pos` of `buf`: the offset of the token (`none` for `NULL`), the buffer, in which
the delimiter ending the token is overwritten with NUL, and the offset left in `saved`. -/
def strtok_r (buf : List Char) (pos : Nat) : Option Nat × List Char × Nat :=
  let start := pos + ((cString buf pos).takeWhile (fun c => c ∈ delimiters)).length
  let token := (cString buf start).takeWhile (fun c => c ∉ delimiters)
  if token = [] then (none, buf, start)
  else
    let stop := start + token.length
    if (cString buf stop) = [] then (some start, buf, stop)
    else (some start, buf.set stop NUL, stop + 1)

/-- The body of the `while` loop of `parseConfigFile` for the `line` just read, with
`argv[0 .. argc - 1]` in `argv`; `malloc` tells whether an allocation of a given size
succeeds. -/
def parseConfigLine (malloc : Nat → Bool) (line : List Char) (argv : List String) :
    Except Fault (List Char × List String) :=
  let k := strtok_r line 0
  let v := strtok_r k.2.1 k.2.2
  let buf := v.2.1
  let withKey : Except Fault (List String) :=
    match k.1 with
    | none => Except.ok argv
    | some key =>
        match strlen buf (key + 2 + 1) with
        | none => Except.error Fault.readPastLine
        | some size =>
            if argv.length ≥ ARGV_SIZE then Except.error Fault.argvOverflow
            else if malloc size then
              if size < 2 + (cString buf key).length + 1 then
                Except.error (Fault.heapOverflow size (2 + (cString buf key).length + 1))
              else Except.ok (argv ++ [String.mk (['-', '-'] ++ cString buf key)])
            else Except.ok argv
  match withKey with
  | Except.error e => Except.error e
  | Except.ok argv =>
      match v.1 with
      | none => Except.ok (buf, argv)
      | some value =>
          if argv.length ≥ ARGV_SIZE then Except.error Fault.argvOverflow
          else if malloc ((cString buf value).length + 1) then
            Except.ok (buf, argv ++ [String.mk (cString buf value)])
          else Except.ok (buf, argv)

/-- The loop `while ( fgets(line, sizeof(line), confFD) != NULL && !feof(confFD) )` of
`parseConfigFile`, on the file left `stream`, the contents of `char line[1024]` and
`argv`; every turn takes a character from the file, and `fuel` bounds the turns. -/
def parseConfigLoop (malloc : Nat → Bool) :
    Nat → List Char → List Char → List String → Except Fault (List String)
  | 0, _, _, _ => Except.error Fault.outOfFuel
  | fuel + 1, stream, line, argv =>
      let r := fgetsScan (1024 - 1) stream
      if r.1 = [] then Except.ok argv
      else
        let line := r.1 ++ [NUL] ++ line.drop (r.1.length + 1)
        if r.2.2 then Except.ok argv
        else
          match parseConfigLine malloc line argv with
          | Except.error e => Except.error e
          | Except.ok next => parseConfigLoop malloc fuel r.2.1 next.1 next.2

/-- The argument vector `parseConfigFile` hands to `poptGetContext` when `fopen`
succeeds on a file of contents `content`: `argv[0] = gExecName`, then what the loop
adds; `line` is what the 1024 bytes of `line` hold on entry. -/
def parseConfigFile (malloc : Nat → Bool) (gExecName : String) (content : List Char)
    (line : List Char) : Except Fault (List String) :=
  parseConfigLoop malloc (content.length + 1) content line [gExecName]

/-- The globals as the C initialisers leave them before `initLogging`. The pointer
`gLogString` is null then; `fpLogTo` has no null value and `_logToTheVoid` stands in
its place here, which no statement below depends on: `initLogging` sets the writer
before anything calls it. -/
def initialGlobals : Globals :=
  { gLog := fun _ => { level := 0, max := 0, site := none },
    gLogString := fpLogTo._logToTheVoid,
    gLogDestination := eLogDestination.kLogToUndefined,
    gLogLevel := 0,
    gLogName := "",
    gLogFile := FILE.NULL,
    gDLhandle := none,
    gFunctionTraceEnabled := 0,
    gCallDepth := 1,
    events := [] }

/-- A C library in which every `fopen` fails with `EACCES` and no symbol resolves. -/
def failingLibc : Libc :=
  { fopen := fun _ => none,
    errno := 13,
    strerror := fun _ => "Permission denied",
    dlopen := none,
    dladdr := fun _ => none }

/-- Modelled from the spec: `logLogInit` and `logScopeNames` (`obj/logscopedefs.inc`) and
`kMaxLogScope` (`obj/logscopes.inc`) are generated by the Makefile. A build with two
scopes, `logging.c` in scope 0, whose `logLogInit` gives each scope its number of
sites (three) and an array of that many site flags, all active (zero). -/
def sampleBuild : Build :=
  { kMaxLogScope := 2,
    LOG_SCOPE := 0,
    FILE__ := "logging.c",
    logScopeNames := fun i => if i = 0 then "logging" else "main",
    logLogInit := fun g i => { g i with max := 3, site := some [0, 0, 0] } }

/-- A state like the one `initLogging` leaves under `sampleBuild` when `dlopen` fails:
console writer, no destination recorded, every level at `kLogDebug`, three active
sites per scope, nothing written yet. -/
def sampleGlobals : Globals :=
  { gLog := fun _ => { level := 7, max := 3, site := some [0, 0, 0] },
    gLogString := fpLogTo._logToStderr,
    gLogDestination := eLogDestination.kLogToUndefined,
    gLogLevel := 7,
    gLogName := "daemon",
    gLogFile := FILE.stderr,
    gDLhandle := none,
    gFunctionTraceEnabled := 0,
    gCallDepth := 1,
    events := [] }

/-- The state `sampleGlobals` with syslog selected: `kLogToSyslog` recorded and
`_logToSyslog` the writer. -/
def sampleSyslogGlobals : Globals :=
  { sampleGlobals with
    gLogString := fpLogTo._logToSyslog,
    gLogDestination := eLogDestination.kLogToSyslog }

/-! ## Theorems -/

/-- C1: with the site array of scope `S` allocated for its `max` entries,
`logCheck(P, S, I)` is true exactly when `gLogLevel >= P`, `I < gLog[S].max`,
`gLog[S].level >= P` and `gLog[S].site[I] == 0` all hold, and false in every other
case; the site array is dereferenced only after `I < gLog[S].max` has been tested:
for `I >= gLog[S].max` the result is false whatever the site pointer is, and an
invalid read can only happen with `I < gLog[S].max`. -/
theorem logCheck_iff_all_four (gLogLevel : Nat) (gLog : Nat → gLogEntry) (P S I : Nat)
    (bytes : List Nat) (hsite : (gLog S).site = some bytes)
    (hlen : (gLog S).max ≤ bytes.length) :
    (logCheck gLogLevel gLog P S I = some true ↔
      gLogLevel ≥ P ∧ I < (gLog S).max ∧ (gLog S).level ≥ P ∧ bytes[I]? = some 0) ∧
    (logCheck gLogLevel gLog P S I = some false ↔
      ¬ (gLogLevel ≥ P ∧ I < (gLog S).max ∧ (gLog S).level ≥ P ∧ bytes[I]? = some 0)) ∧
    (∀ g : Nat → gLogEntry, ¬ I < (g S).max → logCheck gLogLevel g P S I = some false) ∧
    (∀ g : Nat → gLogEntry, logCheck gLogLevel g P S I = none → I < (g S).max) := by
  refine ⟨?_, ?_, ?_, ?_⟩
  · unfold logCheck readSite
    rw [hsite]
    by_cases h1 : gLogLevel ≥ P <;> by_cases h2 : (gLog S).max > I <;>
      by_cases h3 : (gLog S).level ≥ P <;> simp [h1, h2, h3]
    have hI : I < bytes.length := lt_of_lt_of_le h2 hlen
    rw [List.getElem?_eq_getElem hI]
    simp
  · unfold logCheck readSite
    rw [hsite]
    by_cases h1 : gLogLevel ≥ P <;> by_cases h2 : (gLog S).max > I <;>
      by_cases h3 : (gLog S).level ≥ P <;> simp [h1, h2, h3]
    have hI : I < bytes.length := lt_of_lt_of_le h2 hlen
    rw [List.getElem?_eq_getElem hI]
    simp
  · intro g hI
    unfold logCheck
    simp [hI]
  · intro g hnone
    unfold logCheck at hnone
    by_contra hI
    simp [hI] at hnone

/-- Witness of C1: a scope with three sites, all levels at debug. -/
theorem logCheck_iff_all_four_witness :
    (logCheck 7 (fun _ => { level := 7, max := 3, site := some [0, 1, 0] }) 3 0 2 = some true ↔
      7 ≥ 3 ∧ 2 < 3 ∧ 7 ≥ 3 ∧ [0, 1, 0][2]? = some 0) ∧
    logCheck 7 (fun _ => { level := 7, max := 3, site := some [0, 1, 0] }) 3 0 2 = some true :=
  ⟨(logCheck_iff_all_four 7 (fun _ => { level := 7, max := 3, site := some [0, 1, 0] })
      3 0 2 [0, 1, 0] rfl (by decide)).1, by decide⟩

/-- C2: for an in-range site `I` of scope `S` whose site array is allocated, after
`gLog[S].site[I] = v` with `v` non-zero `logCheck(P, S, I)` is false for every priority
`P`, and `logCheck(P', S', I')` is what it was for every priority `P'` and every other
pair `(S', I')`, in the same scope or another. -/
theorem setSite_suppresses_only_that_site (gLogLevel : Nat) (gLog : Nat → gLogEntry)
    (S I v : Nat) (bytes : List Nat) (hsite : (gLog S).site = some bytes)
    (hlen : (gLog S).max ≤ bytes.length) (hI : I < (gLog S).max) (hv : v ≠ 0) :
    (∀ P, logCheck gLogLevel (setSite gLog S I v) P S I = some false) ∧
    (∀ P' S' I', (S', I') ≠ (S, I) →
      logCheck gLogLevel (setSite gLog S I v) P' S' I' = logCheck gLogLevel gLog P' S' I') := by
  have hIb : I < bytes.length := lt_of_lt_of_le hI hlen
  constructor
  · intro P
    unfold logCheck setSite readSite
    simp only [Function.update_same, hsite, Option.map_some']
    have hread : (bytes.set I v)[I]? = some v := by
      rw [List.getElem?_set_self hIb]
    rw [hread]
    by_cases h1 : gLogLevel ≥ P <;> by_cases h2 : (gLog S).max > I <;>
      by_cases h3 : (gLog S).level ≥ P <;> simp [h1, h2, h3, hv]
  · intro P' S' I' hne
    unfold logCheck setSite readSite
    by_cases hS : S' = S
    · subst hS
      have hI' : I ≠ I' := by
        intro h
        exact hne (by rw [h])
      simp only [Function.update_same, hsite, Option.map_some']
      rw [List.getElem?_set_ne hI']
    · simp only [Function.update_noteq hS]

/-- Witness of C2: site 1 of scope 0 is suppressed, sites 0 and 2 stay active. -/
theorem setSite_suppresses_only_that_site_witness :
    (∀ P, logCheck 7 (setSite (fun _ => { level := 7, max := 3, site := some [0, 0, 0] }) 0 1 1)
      P 0 1 = some false) ∧
    logCheck 7 (setSite (fun _ => { level := 7, max := 3, site := some [0, 0, 0] }) 0 1 1)
      7 0 2 = some true :=
  ⟨(setSite_suppresses_only_that_site 7 (fun _ => { level := 7, max := 3, site := some [0, 0, 0] })
      0 1 1 [0, 0, 0] rfl (by decide) (by decide) (by decide)).1, by decide⟩

/-- Counterexample of C3: with a path that cannot be opened, the first
`startLogging(7, kLogToFile, path)` records `kLogToStderr`, so the second call with the
same arguments is not redundant: it calls `fopen` once more and writes the failure
notice once more. -/
theorem startLogging_twice_file_reopens :
    ∃ s1 s2,
      startLogging failingLibc sampleBuild 7 eLogDestination.kLogToFile (some "/var/log/x")
        sampleGlobals = Except.ok s1 ∧
      startLogging failingLibc sampleBuild 7 eLogDestination.kLogToFile (some "/var/log/x")
        s1 = Except.ok s2 ∧
      s1.gLogDestination = eLogDestination.kLogToStderr ∧
      s2.events = s1.events ++
        [Event.fopen "/var/log/x" FILE.NULL,
          Event.fprintf FILE.stderr
            ("Unable to log to \"/var/log/x\" (Permission denied [13]), redirecting to stderr" ++
              " (logging.c:152)\n")] :=
  ⟨_, _, rfl, rfl, rfl, by decide⟩

/-- A call of `startLogging` for the destination already recorded changes the global
level and nothing else. -/
theorem startLogging_of_same_kind (libc : Libc) (b : Build) (L : Nat) (K : eLogDestination)
    (path : Option String) (s : Globals) (h : s.gLogDestination = K) :
    startLogging libc b L K path s = Except.ok { s with gLogLevel := L } := by
  simp [startLogging, h]

/-- C3, amended: when the first `startLogging(L1, K, path)` does not fall back to the
console (it falls back only when it switches to `kLogToFile` with a path whose `fopen`
fails), it returns with `K` recorded, and the second call `startLogging(L2, K, path)`
changes only the global level, to `L2`: no `fopen`, `openlog`, `fclose` or `closelog`
is performed, and the recorded destination, the writer and the file handle stay as the
first call left them. -/
theorem startLogging_twice_same_kind (libc1 libc2 : Libc) (b : Build) (L1 L2 : Nat)
    (K : eLogDestination) (path : Option String) (s : Globals)
    (hopen : ¬ (s.gLogDestination ≠ K ∧ K = eLogDestination.kLogToFile ∧
      ∃ p, path = some p ∧ libc1.fopen p = none)) :
    ∃ s1, startLogging libc1 b L1 K path s = Except.ok s1 ∧ s1.gLogDestination = K ∧
      startLogging libc2 b L2 K path s1 = Except.ok { s1 with gLogLevel := L2 } := by
  have hfirst : ∃ s1, startLogging libc1 b L1 K path s = Except.ok s1 ∧
      s1.gLogDestination = K := by
    by_cases hd : s.gLogDestination = K
    · exact ⟨_, startLogging_of_same_kind libc1 b L1 K path s hd, hd⟩
    · have hd' : K ≠ s.gLogDestination := fun h => hd h.symm
      cases K with
      | kLogToUndefined =>
        simp only [startLogging, hd', ne_eq, not_false_eq_true, if_true]
        exact ⟨_, rfl, rfl⟩
      | kLogToSyslog =>
        simp only [startLogging, hd', ne_eq, not_false_eq_true, if_true]
        exact ⟨_, rfl, rfl⟩
      | kLogToStderr =>
        simp only [startLogging, hd', ne_eq, not_false_eq_true, if_true]
        exact ⟨_, rfl, rfl⟩
      | kLogToFile =>
        cases path with
        | none =>
          simp only [startLogging, hd', ne_eq, not_false_eq_true, if_true]
          exact ⟨_, rfl, rfl⟩
        | some p =>
          cases hf : libc1.fopen p with
          | none => exact absurd ⟨hd, rfl, p, rfl, hf⟩ hopen
          | some id =>
            simp only [startLogging, hd', ne_eq, not_false_eq_true, if_true, hf]
            exact ⟨_, rfl, rfl⟩
  obtain ⟨s1, h1, hK⟩ := hfirst
  exact ⟨s1, h1, hK, startLogging_of_same_kind libc2 b L2 K path s1 hK⟩

/-- Witness of C3, amended: syslog selected twice from the state `initLogging` leaves. -/
theorem startLogging_twice_same_kind_witness :
    ∃ s1, startLogging failingLibc sampleBuild 7 eLogDestination.kLogToSyslog none
        sampleGlobals = Except.ok s1 ∧
      s1.gLogDestination = eLogDestination.kLogToSyslog ∧
      startLogging failingLibc sampleBuild 3 eLogDestination.kLogToSyslog none s1 =
        Except.ok { s1 with gLogLevel := 3 } :=
  startLogging_twice_same_kind failingLibc failingLibc sampleBuild 7 3
    eLogDestination.kLogToSyslog none sampleGlobals (fun h => absurd h.2.1 (by decide))

/-- The state in which `startLogging` writes its failure notice: the level set, the
prior destination torn down, the writer switched to the console, `fopen` failed. -/
theorem startLogging_file_open_fails (libc : Libc) (b : Build) (L : Nat) (path : String)
    (s : Globals) (hdest : s.gLogDestination ≠ eLogDestination.kLogToFile)
    (hfail : libc.fopen path = none) :
    startLogging libc b L eLogDestination.kLogToFile (some path) s =
      match logWithLocation b.FILE__ 152 kLogError b.LOG_SCOPE 2 (unableToLog libc path)
          { stopLogging { s with gLogLevel := L } with
            gLogString := fpLogTo._logToStderr,
            gLogFile := FILE.NULL,
            events := (stopLogging { s with gLogLevel := L }).events ++
              [Event.fopen path FILE.NULL] } with
      | Except.error e => Except.error e
      | Except.ok s1 => Except.ok { s1 with gLogDestination := eLogDestination.kLogToStderr } := by
  have hd : eLogDestination.kLogToFile ≠ s.gLogDestination := fun h => hdest h.symm
  simp only [startLogging, hd, ne_eq, not_false_eq_true, if_true, hfail]

/-- What `stopLogging` adds to the calls made, from a destination other than a file. -/
theorem stopLogging_events_of_not_file (s : Globals)
    (hdest : s.gLogDestination ≠ eLogDestination.kLogToFile) :
    (stopLogging s).events = s.events ++
      (if s.gLogDestination = eLogDestination.kLogToSyslog then [Event.closelog] else []) := by
  unfold stopLogging
  cases hd : s.gLogDestination <;> simp_all

/-- Counterexample of C4: at level 0 (emergencies only) the notice of priority
`kLogError` does not pass `logCheck`; the call performs the failed `fopen` and writes
nothing. -/
theorem startLogging_file_failure_silent_at_level_0 :
    ∃ s1,
      startLogging failingLibc sampleBuild 0 eLogDestination.kLogToFile (some "/var/log/x")
        sampleGlobals = Except.ok s1 ∧
      s1.events = [Event.fopen "/var/log/x" FILE.NULL] ∧
      s1.events.filter Event.isWrite = [] :=
  ⟨_, rfl, by decide, by decide⟩

/-- With the site array allocated for the `max` entries of the scope, `logCheck` reads
inside it. -/
theorem logCheck_ne_none (gLogLevel : Nat) (gLog : Nat → gLogEntry) (P S I : Nat)
    (bytes : List Nat) (hsite : (gLog S).site = some bytes)
    (hlen : (gLog S).max ≤ bytes.length) : logCheck gLogLevel gLog P S I ≠ none := by
  unfold logCheck readSite
  rw [hsite]
  by_cases h1 : gLogLevel ≥ P <;> by_cases h2 : (gLog S).max > I <;>
    by_cases h3 : (gLog S).level ≥ P <;> simp [h1, h2, h3]
  have hI : I < bytes.length := lt_of_lt_of_le h2 hlen
  rw [List.getElem?_eq_getElem hI]
  simp

/-- The `stopLogging` function leaves the scope table alone. -/
theorem stopLogging_gLog (s : Globals) : (stopLogging s).gLog = s.gLog := by
  unfold stopLogging
  cases s.gLogDestination <;> rfl

/-- The `stopLogging` function leaves the global level alone. -/
theorem stopLogging_gLogLevel (s : Globals) : (stopLogging s).gLogLevel = s.gLogLevel := by
  unfold stopLogging
  cases s.gLogDestination <;> rfl

/-- C4, amended: from a state whose recorded destination is not `kLogToFile` (and whose
site array for the scope of `logging.c` is allocated), `startLogging(L, kLogToFile, path)`
with a path whose `fopen` fails returns with the console writer and `kLogToStderr`
recorded, so every later message goes to stderr; during the call it tears down the
prior destination, calls `fopen` once, and writes the failure notice, once and to
stderr, exactly when the notice passes `logCheck` at priority `kLogError` under the new
level `L`; otherwise it writes nothing. -/
theorem startLogging_file_failure_falls_back (libc : Libc) (b : Build) (L : Nat)
    (path : String) (s : Globals) (bytes : List Nat)
    (hdest : s.gLogDestination ≠ eLogDestination.kLogToFile)
    (hfail : libc.fopen path = none)
    (hsite : (s.gLog b.LOG_SCOPE).site = some bytes)
    (hlen : (s.gLog b.LOG_SCOPE).max ≤ bytes.length) :
    ∃ s1, startLogging libc b L eLogDestination.kLogToFile (some path) s = Except.ok s1 ∧
      s1.gLogString = fpLogTo._logToStderr ∧
      s1.gLogDestination = eLogDestination.kLogToStderr ∧
      s1.events = s.events ++
        (if s.gLogDestination = eLogDestination.kLogToSyslog then [Event.closelog] else []) ++
        [Event.fopen path FILE.NULL] ++
        (if logCheck L s.gLog kLogError b.LOG_SCOPE 2 = some true then
          [Event.fprintf FILE.stderr (locatedMsg b.FILE__ 152 (unableToLog libc path) ++ "\n")]
         else []) ∧
      ∀ p m, callLogString p m s1 =
        { s1 with events := s1.events ++ [Event.fprintf FILE.stderr (m ++ "\n")] } := by
  rw [startLogging_file_open_fails libc b L path s hdest hfail]
  have hev : (stopLogging { s with gLogLevel := L }).events = s.events ++
      (if s.gLogDestination = eLogDestination.kLogToSyslog then [Event.closelog] else []) :=
    stopLogging_events_of_not_file { s with gLogLevel := L } hdest
  have hne := logCheck_ne_none L s.gLog kLogError b.LOG_SCOPE 2 bytes hsite hlen
  unfold logWithLocation
  simp only [stopLogging_gLog, stopLogging_gLogLevel]
  cases hc : logCheck L s.gLog kLogError b.LOG_SCOPE 2 with
  | none => exact absurd hc hne
  | some v =>
    cases v with
    | true =>
      refine ⟨_, rfl, rfl, rfl, ?_, ?_⟩
      · simp [_logWithLocation, callLogString, _logToStderr, hev]
      · intro p m
        rfl
    | false =>
      refine ⟨_, rfl, rfl, rfl, ?_, ?_⟩
      · simp [hev]
      · intro p m
        rfl

/-- Witness of C4, amended: at level 7 the notice is written, once, to stderr. -/
theorem startLogging_file_failure_falls_back_witness :
    ∃ s1, startLogging failingLibc sampleBuild 7 eLogDestination.kLogToFile
        (some "/var/log/x") sampleGlobals = Except.ok s1 ∧
      s1.gLogString = fpLogTo._logToStderr ∧
      s1.gLogDestination = eLogDestination.kLogToStderr ∧
      s1.events = [Event.fopen "/var/log/x" FILE.NULL,
        Event.fprintf FILE.stderr (locatedMsg "logging.c" 152
          (unableToLog failingLibc "/var/log/x") ++ "\n")] := by
  obtain ⟨s1, h1, h2, h3, h4, _⟩ :=
    startLogging_file_failure_falls_back failingLibc sampleBuild 7 "/var/log/x"
      sampleGlobals [0, 0, 0] (by decide) rfl rfl (by decide)
  exact ⟨s1, h1, h2, h3, h4⟩

/-- Counterexample of C5: `initLogging`, then syslog selected, then
`startLogging(7, kLogToFile, path)` with a path that cannot be opened. The writer before
the last call is `_logToSyslog`, and the failure notice is not written through it: the
call closes syslog, fails to open the file, and writes the notice to stderr. -/
theorem startLogging_file_failure_notice_not_on_syslog :
    ∃ s0 s1 s2,
      initLogging failingLibc sampleBuild "daemon" initialGlobals = Except.ok s0 ∧
      startLogging failingLibc sampleBuild 7 eLogDestination.kLogToSyslog none s0 =
        Except.ok s1 ∧
      startLogging failingLibc sampleBuild 7 eLogDestination.kLogToFile (some "/var/log/x")
        s1 = Except.ok s2 ∧
      s1.gLogString = fpLogTo._logToSyslog ∧
      s2.events.drop s1.events.length =
        [Event.closelog, Event.fopen "/var/log/x" FILE.NULL,
          Event.fprintf FILE.stderr
            ("Unable to log to \"/var/log/x\" (Permission denied [13]), redirecting to stderr" ++
              " (logging.c:152)\n")] :=
  ⟨_, _, _, rfl, rfl, rfl, rfl, by decide⟩

/-- The `stopLogging` function neither reads nor sets the writer. -/
theorem stopLogging_with_writer (s : Globals) (w : fpLogTo) :
    stopLogging { s with gLogString := w } = { stopLogging s with gLogString := w } := by
  obtain ⟨g, w0, d, l, nm, f, dl, t, c, ev⟩ := s
  cases d <;> rfl

/-- A call of `startLogging` for a file that cannot be opened does the same whatever
the writer was before the call. -/
theorem startLogging_file_open_fails_writer (libc : Libc) (b : Build) (L : Nat)
    (path : String) (s : Globals) (w : fpLogTo)
    (hdest : s.gLogDestination ≠ eLogDestination.kLogToFile)
    (hfail : libc.fopen path = none) :
    startLogging libc b L eLogDestination.kLogToFile (some path) { s with gLogString := w } =
      startLogging libc b L eLogDestination.kLogToFile (some path) s := by
  rw [startLogging_file_open_fails libc b L path s hdest hfail,
    startLogging_file_open_fails libc b L path { s with gLogString := w } hdest hfail]
  have hstop : stopLogging { { s with gLogString := w } with gLogLevel := L } =
      { stopLogging { s with gLogLevel := L } with gLogString := w } :=
    stopLogging_with_writer { s with gLogLevel := L } w
  rw [hstop]

/-- C5, amended: when `startLogging(L, kLogToFile, path)` fails to open the file, the
prior destination is torn down first (`closelog` if it was syslog) and the writer is
switched to the console writer before `fopen` is tried; the failure notice is written
exactly when it passes `logCheck` at priority `kLogError` under the new level `L`, and
then by the console writer to stderr, whatever writer was active before the call
(syslog, the void, a file or the console): the outcome of the call is the same for
every pre-switch writer. On return the writer is the console writer and `kLogToStderr`
is recorded. -/
theorem startLogging_file_failure_notice_on_stderr (libc : Libc) (b : Build) (L : Nat)
    (path : String) (s : Globals) (bytes : List Nat)
    (hdest : s.gLogDestination ≠ eLogDestination.kLogToFile)
    (hfail : libc.fopen path = none)
    (hsite : (s.gLog b.LOG_SCOPE).site = some bytes)
    (hlen : (s.gLog b.LOG_SCOPE).max ≤ bytes.length) :
    ∃ s1, startLogging libc b L eLogDestination.kLogToFile (some path) s = Except.ok s1 ∧
      s1.gLogString = fpLogTo._logToStderr ∧
      s1.gLogDestination = eLogDestination.kLogToStderr ∧
      s1.events = s.events ++
        (if s.gLogDestination = eLogDestination.kLogToSyslog then [Event.closelog] else []) ++
        [Event.fopen path FILE.NULL] ++
        (if logCheck L s.gLog kLogError b.LOG_SCOPE 2 = some true then
          [Event.fprintf FILE.stderr (locatedMsg b.FILE__ 152 (unableToLog libc path) ++ "\n")]
         else []) ∧
      (∀ w : fpLogTo,
        startLogging libc b L eLogDestination.kLogToFile (some path)
          { s with gLogString := w } = Except.ok s1) := by
  have hmain : ∃ s1,
      startLogging libc b L eLogDestination.kLogToFile (some path) s = Except.ok s1 ∧
      s1.gLogString = fpLogTo._logToStderr ∧
      s1.gLogDestination = eLogDestination.kLogToStderr ∧
      s1.events = s.events ++
        (if s.gLogDestination = eLogDestination.kLogToSyslog then [Event.closelog] else []) ++
        [Event.fopen path FILE.NULL] ++
        (if logCheck L s.gLog kLogError b.LOG_SCOPE 2 = some true then
          [Event.fprintf FILE.stderr (locatedMsg b.FILE__ 152 (unableToLog libc path) ++ "\n")]
         else []) := by
    rw [startLogging_file_open_fails libc b L path s hdest hfail]
    have hev : (stopLogging { s with gLogLevel := L }).events = s.events ++
        (if s.gLogDestination = eLogDestination.kLogToSyslog then [Event.closelog] else []) :=
      stopLogging_events_of_not_file { s with gLogLevel := L } hdest
    have hne := logCheck_ne_none L s.gLog kLogError b.LOG_SCOPE 2 bytes hsite hlen
    unfold logWithLocation
    simp only [stopLogging_gLog, stopLogging_gLogLevel]
    cases hc : logCheck L s.gLog kLogError b.LOG_SCOPE 2 with
    | none => exact absurd hc hne
    | some v =>
      cases v with
      | true =>
        refine ⟨_, rfl, rfl, rfl, ?_⟩
        simp [_logWithLocation, callLogString, _logToStderr, hev]
      | false =>
        refine ⟨_, rfl, rfl, rfl, ?_⟩
        simp [hev]
  obtain ⟨s1, h1, h2, h3, h4⟩ := hmain
  refine ⟨s1, h1, h2, h3, h4, ?_⟩
  intro w
  rw [startLogging_file_open_fails_writer libc b L path s w hdest hfail]
  exact h1

/-- Witness of C5, amended: syslog active before the call; the notice goes to stderr,
and it does so as well from the void writer. -/
theorem startLogging_file_failure_notice_on_stderr_witness :
    ∃ s1, startLogging failingLibc sampleBuild 7 eLogDestination.kLogToFile
        (some "/var/log/x") sampleSyslogGlobals = Except.ok s1 ∧
      s1.gLogString = fpLogTo._logToStderr ∧
      s1.gLogDestination = eLogDestination.kLogToStderr ∧
      s1.events = [Event.closelog, Event.fopen "/var/log/x" FILE.NULL,
        Event.fprintf FILE.stderr (locatedMsg "logging.c" 152
          (unableToLog failingLibc "/var/log/x") ++ "\n")] ∧
      startLogging failingLibc sampleBuild 7 eLogDestination.kLogToFile (some "/var/log/x")
        { sampleSyslogGlobals with gLogString := fpLogTo._logToTheVoid } = Except.ok s1 := by
  obtain ⟨s1, h1, h2, h3, h4, h5⟩ :=
    startLogging_file_failure_notice_on_stderr failingLibc sampleBuild 7 "/var/log/x"
      sampleSyslogGlobals [0, 0, 0] (by decide) rfl rfl (by decide)
  exact ⟨s1, h1, h2, h3, h4, h5 fpLogTo._logToTheVoid⟩

/-- With no destination recorded, `stopLogging` changes nothing. -/
theorem stopLogging_of_undefined (s : Globals)
    (h : s.gLogDestination = eLogDestination.kLogToUndefined) : stopLogging s = s := by
  cases s
  simp only at h
  subst h
  rfl

/-- C6: `stopLogging` is idempotent: a second call leaves every global (recorded
destination, level, writer, file handle) and the list of calls made exactly as
the first call left them, so it performs no `fclose` and no `closelog`; the recorded
destination is `kLogToUndefined` after one call and after two. -/
theorem stopLogging_idempotent (s : Globals) :
    stopLogging (stopLogging s) = stopLogging s ∧
    (stopLogging s).gLogDestination = eLogDestination.kLogToUndefined ∧
    (stopLogging (stopLogging s)).gLogDestination = eLogDestination.kLogToUndefined ∧
    (stopLogging (stopLogging s)).events = (stopLogging s).events := by
  have h : (stopLogging s).gLogDestination = eLogDestination.kLogToUndefined := rfl
  have h2 : stopLogging (stopLogging s) = stopLogging s :=
    stopLogging_of_undefined (stopLogging s) h
  exact ⟨h2, h, by rw [h2, h], by rw [h2]⟩

/-- Counterexample of C7: right after `initLogging` the recorded destination already is
`kLogToUndefined`, so `startLogging(7, kLogToUndefined, NULL)` sets the level only; the
writer stays the console writer, and a sink write still prints to stderr. -/
theorem startLogging_undefined_after_init_keeps_console :
    ∃ s0 s1,
      initLogging failingLibc sampleBuild "daemon" initialGlobals = Except.ok s0 ∧
      startLogging failingLibc sampleBuild 7 eLogDestination.kLogToUndefined none s0 =
        Except.ok s1 ∧
      s1.gLogString = fpLogTo._logToStderr ∧
      (callLogString kLogError "lost?" s1).events =
        s1.events ++ [Event.fprintf FILE.stderr "lost?\n"] :=
  ⟨_, _, rfl, rfl, rfl, rfl⟩

/-- C7, amended: from a state whose recorded destination is not `kLogToUndefined`,
`startLogging(L, kLogToUndefined, path)` returns with `_logToTheVoid` as the writer, through
which a sink write changes nothing and produces no output; from a state whose recorded
destination is `kLogToUndefined` already (as right after `initLogging` or `stopLogging`)
the call sets the global level and leaves the writer as it was. -/
theorem startLogging_undefined_writer (libc : Libc) (b : Build) (L : Nat)
    (path : Option String) (s : Globals) :
    (s.gLogDestination ≠ eLogDestination.kLogToUndefined →
      ∃ s1, startLogging libc b L eLogDestination.kLogToUndefined path s = Except.ok s1 ∧
        s1.gLogString = fpLogTo._logToTheVoid ∧
        s1.gLogDestination = eLogDestination.kLogToUndefined ∧
        ∀ p m, callLogString p m s1 = s1) ∧
    (s.gLogDestination = eLogDestination.kLogToUndefined →
      startLogging libc b L eLogDestination.kLogToUndefined path s =
        Except.ok { s with gLogLevel := L }) := by
  constructor
  · intro hd
    have hd' : eLogDestination.kLogToUndefined ≠ s.gLogDestination := fun h => hd h.symm
    simp only [startLogging, hd', ne_eq, not_false_eq_true, if_true]
    refine ⟨_, rfl, rfl, rfl, ?_⟩
    intro p m
    rfl
  · intro hd
    simp [startLogging, hd]

/-- Witness of C7, amended: from syslog, selecting `kLogToUndefined` installs
`_logToTheVoid`. -/
theorem startLogging_undefined_writer_witness :
    ∃ s1, startLogging failingLibc sampleBuild 7 eLogDestination.kLogToUndefined none
        sampleSyslogGlobals = Except.ok s1 ∧
      s1.gLogString = fpLogTo._logToTheVoid ∧
      s1.gLogDestination = eLogDestination.kLogToUndefined ∧
      ∀ p m, callLogString p m s1 = s1 :=
  (startLogging_undefined_writer failingLibc sampleBuild 7 none sampleSyslogGlobals).1
    (by decide)

/-- C8, the code at the failing input: after `initLogging`, `startLogging(7, kLogToFile, NULL)`
records `kLogToFile` while `gLogFile` is still `stderr` and no file was opened;
the next `stopLogging` then calls `fclose(stderr)`. -/
theorem startLogging_file_null_path_then_stop_closes_stderr :
    ∃ s0 s1,
      initLogging failingLibc sampleBuild "daemon" initialGlobals = Except.ok s0 ∧
      startLogging failingLibc sampleBuild 7 eLogDestination.kLogToFile none s0 =
        Except.ok s1 ∧
      s1.gLogDestination = eLogDestination.kLogToFile ∧
      s1.gLogFile = FILE.stderr ∧
      s1.events.filter (fun e => e matches Event.fopen _ _) = [] ∧
      (stopLogging s1).events = s1.events ++ [Event.fclose FILE.stderr] :=
  ⟨_, _, rfl, rfl, rfl, rfl, by decide, rfl⟩

/-- A writer changes nothing but the list of calls made. -/
theorem callLogString_eq_with_events (priority : Nat) (msg : String) (s : Globals) :
    ∃ ev, callLogString priority msg s = { s with events := ev } := by
  obtain ⟨g, w, d, l, nm, f, dl, t, c, ev⟩ := s
  cases w <;> exact ⟨_, rfl⟩

/-- A `logWithLocation` statement that returns changes nothing but the list of calls
made. -/
theorem logWithLocation_eq_with_events (inFile : String) (atLine priority scope id : Nat)
    (rendered : String) (s s1 : Globals)
    (h : logWithLocation inFile atLine priority scope id rendered s = Except.ok s1) :
    ∃ ev, s1 = { s with events := ev } := by
  unfold logWithLocation at h
  split at h
  · cases h
  · obtain ⟨ev, hev⟩ := callLogString_eq_with_events priority
      (locatedMsg inFile atLine rendered) s
    injection h with h
    exact ⟨ev, by rw [← h, _logWithLocation, hev]⟩
  · injection h with h
    exact ⟨s.events, by rw [← h]⟩

/-- What the loop of `initLogging` leaves when it returns: scopes `i` .. `i + n - 1` at
level `kLogDebug`, and nothing else changed but the list of calls made. -/
theorem initLoggingLoop_ok (b : Build) (n : Nat) :
    ∀ (i : Nat) (s s1 : Globals), initLoggingLoop b n i s = Except.ok s1 →
      s1.gLogLevel = s.gLogLevel ∧ s1.gLogString = s.gLogString ∧
      s1.gLogFile = s.gLogFile ∧ s1.gLogDestination = s.gLogDestination ∧
      s1.gDLhandle = s.gDLhandle ∧
      (∀ j, (s1.gLog j).max = (s.gLog j).max ∧ (s1.gLog j).site = (s.gLog j).site) ∧
      (∀ j, i ≤ j → j < i + n → (s1.gLog j).level = kLogDebug) ∧
      (∀ j, j < i → (s1.gLog j).level = (s.gLog j).level) := by
  induction n with
  | zero =>
    intro i s s1 h
    simp only [initLoggingLoop] at h
    injection h with h
    subst h
    exact ⟨rfl, rfl, rfl, rfl, rfl, fun j => ⟨rfl, rfl⟩, fun j h1 h2 => by omega, fun j _ => rfl⟩
  | succ n ih =>
    intro i s s1 h
    simp only [initLoggingLoop] at h
    split at h
    · split at h <;> cases h
    · split at h
      · cases h
      · rename_i s2 hlog
        obtain ⟨ev, hev⟩ := logWithLocation_eq_with_events _ _ _ _ _ _ _ _ hlog
        obtain ⟨h1, h2, h3, h4, h5, h6, h7, h8⟩ := ih (i + 1) s2 s1 h
        subst hev
        refine ⟨h1, h2, h3, h4, h5, ?_, ?_, ?_⟩
        · intro j
          obtain ⟨hm, hs⟩ := h6 j
          rw [hm, hs]
          by_cases hj : j = i
          · subst hj
            simp
          · simp [Function.update_noteq hj]
        · intro j hij hjn
          by_cases hj : j = i
          · subst hj
            rw [h8 j (by omega)]
            simp
          · exact h7 j (by omega) (by omega)
        · intro j hji
          rw [h8 j (by omega)]
          have hj : j ≠ i := by omega
          simp [Function.update_noteq hj]

/-- A `logWithLocation` statement returns when the site array of its scope is allocated
for the `max` entries of the scope. -/
theorem logWithLocation_returns (inFile : String) (atLine priority scope id : Nat)
    (rendered : String) (s : Globals) (bytes : List Nat)
    (hsite : (s.gLog scope).site = some bytes) (hlen : (s.gLog scope).max ≤ bytes.length) :
    ∃ s1, logWithLocation inFile atLine priority scope id rendered s = Except.ok s1 := by
  have hne := logCheck_ne_none s.gLogLevel s.gLog priority scope id bytes hsite hlen
  unfold logWithLocation
  cases hc : logCheck s.gLogLevel s.gLog priority scope id with
  | none => exact absurd hc hne
  | some v => cases v <;> exact ⟨_, rfl⟩

/-- Setting the level of scope `i` leaves every `max` and every `site` alone. -/
theorem update_level_max_site (g : Nat → gLogEntry) (i lvl j : Nat) :
    (Function.update g i { g i with level := lvl } j).max = (g j).max ∧
    (Function.update g i { g i with level := lvl } j).site = (g j).site := by
  by_cases hj : j = i
  · subst hj
    simp
  · simp [Function.update_noteq hj]

/-- The loop of `initLogging` returns when every scope it visits has a site array and
the site array of the scope of `logging.c` is allocated for its `max` entries. -/
theorem initLoggingLoop_returns (b : Build) (n : Nat) :
    ∀ (i : Nat) (s : Globals),
      (∀ j, i ≤ j → j < i + n → (s.gLog j).site ≠ none) →
      (∃ bytes, (s.gLog b.LOG_SCOPE).site = some bytes ∧
        (s.gLog b.LOG_SCOPE).max ≤ bytes.length) →
      ∃ s1, initLoggingLoop b n i s = Except.ok s1 := by
  induction n with
  | zero =>
    intro i s _ _
    exact ⟨s, rfl⟩
  | succ n ih =>
    intro i s hall hscope
    obtain ⟨bytes, hsite, hlen⟩ := hscope
    have hupd := update_level_max_site s.gLog i kLogDebug
    have hi : (Function.update s.gLog i { s.gLog i with level := kLogDebug } i).site ≠ none := by
      rw [(hupd i).2]
      exact hall i (le_refl i) (by omega)
    obtain ⟨s2, hs2⟩ := logWithLocation_returns b.FILE__ 112 kLogDebug b.LOG_SCOPE 1
      (b.logScopeNames i ++ " scope has " ++
        toString (Function.update s.gLog i { s.gLog i with level := kLogDebug } i).max ++
        " log statements")
      { s with gLog := Function.update s.gLog i { s.gLog i with level := kLogDebug } } bytes
      (by rw [(hupd b.LOG_SCOPE).2]; exact hsite)
      (by rw [(hupd b.LOG_SCOPE).1]; exact hlen)
    obtain ⟨ev, hev⟩ := logWithLocation_eq_with_events _ _ _ _ _ _ _ _ hs2
    have hnext : ∃ s1, initLoggingLoop b n (i + 1) s2 = Except.ok s1 := by
      apply ih (i + 1) s2
      · intro j h1 h2
        rw [hev]
        show (Function.update s.gLog i { s.gLog i with level := kLogDebug } j).site ≠ none
        rw [(hupd j).2]
        exact hall j (by omega) (by omega)
      · refine ⟨bytes, ?_, ?_⟩
        · rw [hev]
          show (Function.update s.gLog i { s.gLog i with level := kLogDebug } b.LOG_SCOPE).site
            = some bytes
          rw [(hupd b.LOG_SCOPE).2]
          exact hsite
        · rw [hev]
          show (Function.update s.gLog i { s.gLog i with level := kLogDebug } b.LOG_SCOPE).max
            ≤ bytes.length
          rw [(hupd b.LOG_SCOPE).1]
          exact hlen
    obtain ⟨s1, hs1⟩ := hnext
    refine ⟨s1, ?_⟩
    simp only [initLoggingLoop, hi, if_false, hs2, hs1]

/-- C9: `initLogging(name)` returns when `logLogInit` has given every scope a site array
(allocated for its `max` entries in the scope of `logging.c`); and whenever it returns,
the global level is `kLogDebug` (7), every scope below `kMaxLogScope` has level
`kLogDebug`, the writer is the console writer and `gLogFile` is `stderr`, so that a
message of any priority up to `kLogDebug` at an in-range site whose flag is zero passes
`logCheck` and is written to stderr, by `log` and by `logWithLocation`. -/
theorem initLogging_defaults (libc : Libc) (b : Build) (name : String) (s0 : Globals) :
    ((∀ i, i < b.kMaxLogScope → (b.logLogInit s0.gLog i).site ≠ none) →
      (∃ bytes, (b.logLogInit s0.gLog b.LOG_SCOPE).site = some bytes ∧
        (b.logLogInit s0.gLog b.LOG_SCOPE).max ≤ bytes.length) →
      ∃ s, initLogging libc b name s0 = Except.ok s) ∧
    (∀ s, initLogging libc b name s0 = Except.ok s →
      s.gLogLevel = kLogDebug ∧ kLogDebug = 7 ∧
      (∀ i, i < b.kMaxLogScope → (s.gLog i).level = kLogDebug) ∧
      s.gLogString = fpLogTo._logToStderr ∧ s.gLogFile = FILE.stderr ∧
      ∀ P scope id rendered, P ≤ kLogDebug → scope < b.kMaxLogScope →
        id < (s.gLog scope).max → readSite (s.gLog scope).site id = some 0 →
        log P scope id rendered s = Except.ok
          { s with events := s.events ++
              [Event.fprintf FILE.stderr (snprintf 256 rendered ++ "\n")] } ∧
        ∀ inFile atLine, logWithLocation inFile atLine P scope id rendered s = Except.ok
          { s with events := s.events ++
              [Event.fprintf FILE.stderr (locatedMsg inFile atLine rendered ++ "\n")] }) := by
  constructor
  · intro hall hscope
    obtain ⟨s1, hs1⟩ := initLoggingLoop_returns b b.kMaxLogScope 0
      { s0 with gLogName := name, gLogDestination := eLogDestination.kLogToUndefined,
                gLogLevel := kLogDebug, gLogFile := FILE.stderr,
                gLogString := fpLogTo._logToStderr, gDLhandle := libc.dlopen,
                gLog := b.logLogInit s0.gLog }
      (fun j _ hj => hall j (by omega)) hscope
    unfold initLogging
    simp only [hs1]
    by_cases hdl : s1.gDLhandle = none
    · exact ⟨s1, by simp [hdl]⟩
    · exact ⟨logFunctionTraceOn s1, by simp [hdl]⟩
  · intro s hs
    unfold initLogging at hs
    simp only at hs
    split at hs
    · cases hs
    · rename_i s1 hloop
      obtain ⟨h1, h2, h3, _, _, _, h7, _⟩ := initLoggingLoop_ok b b.kMaxLogScope 0 _ s1 hloop
      have hfields : s.gLogLevel = kLogDebug ∧ s.gLogString = fpLogTo._logToStderr ∧
          s.gLogFile = FILE.stderr ∧ s.gLog = s1.gLog := by
        split at hs <;> injection hs with hs <;> subst hs
        · exact ⟨h1, h2, h3, rfl⟩
        · exact ⟨h1, h2, h3, rfl⟩
      obtain ⟨hlevel, hwriter, hfile, hgLog⟩ := hfields
      have hscopes : ∀ i, i < b.kMaxLogScope → (s.gLog i).level = kLogDebug := by
        intro i hi
        rw [hgLog]
        exact h7 i (Nat.zero_le i) (by omega)
      refine ⟨hlevel, rfl, hscopes, hwriter, hfile, ?_⟩
      intro P scope id rendered hP hscope hid hread
      have hcheck : logCheck s.gLogLevel s.gLog P scope id = some true := by
        unfold logCheck
        rw [hlevel, hscopes scope hscope, hread]
        simp [hP, hid]
      constructor
      · unfold log
        rw [hcheck]
        simp only [_log, callLogString, hwriter, _logToStderr]
      · intro inFile atLine
        unfold logWithLocation
        rw [hcheck]
        simp only [_logWithLocation, callLogString, hwriter, _logToStderr]

/-- Witness of C9: `initLogging` returns under `sampleBuild`, and an error message at
site 2 of scope 1 is then written to stderr. -/
theorem initLogging_defaults_witness :
    ∃ s, initLogging failingLibc sampleBuild "daemon" initialGlobals = Except.ok s ∧
      s.gLogLevel = 7 ∧
      log kLogError 1 2 "disk full" s = Except.ok
        { s with events := s.events ++ [Event.fprintf FILE.stderr "disk full\n"] } := by
  obtain ⟨s, hs⟩ := (initLogging_defaults failingLibc sampleBuild "daemon" initialGlobals).1
    (fun i _ => by simp [sampleBuild]) ⟨[0, 0, 0], rfl, by decide⟩
  obtain ⟨h1, _, _, _, _, h6⟩ :=
    (initLogging_defaults failingLibc sampleBuild "daemon" initialGlobals).2 s hs
  have hs' : Except.ok s = Except.ok _ := hs.symm.trans
    (rfl : initLogging failingLibc sampleBuild "daemon" initialGlobals = Except.ok _)
  injection hs' with hs'
  refine ⟨s, hs, h1, ?_⟩
  have h := (h6 kLogError 1 2 "disk full" (by decide) (by decide)
    (by rw [hs']; decide) (by rw [hs']; decide)).1
  rw [h]
  rfl

/-- The `_profileHelper` function leaves the call depth alone. -/
theorem _profileHelper_gCallDepth (libc : Libc) (left : Nat) (middle : String) (right : Nat)
    (s : Globals) : (_profileHelper libc left middle right s).gCallDepth = s.gCallDepth := by
  unfold _profileHelper
  split
  · obtain ⟨ev, hev⟩ := callLogString_eq_with_events kLogDebug
      (snprintf 256 (precisionString s.gCallDepth leader ++ " " ++ addrToString libc left s ++
        "() " ++ middle ++ " " ++ addrToString libc right s ++ "()")) s
    rw [hev]
  · rfl

/-- The call depth after `__cyg_profile_func_enter`. -/
theorem enter_gCallDepth (libc : Libc) (this_fn call_site : Nat) (s : Globals) :
    (__cyg_profile_func_enter libc this_fn call_site s).gCallDepth = s.gCallDepth + 1 := by
  unfold __cyg_profile_func_enter
  simp only [_profileHelper_gCallDepth]

/-- The call depth after `__cyg_profile_func_exit`. -/
theorem exit_gCallDepth (libc : Libc) (this_fn call_site : Nat) (s : Globals) :
    (__cyg_profile_func_exit libc this_fn call_site s).gCallDepth =
      if s.gCallDepth - 1 < 1 then 1 else s.gCallDepth - 1 := by
  unfold __cyg_profile_func_exit
  simp only [_profileHelper_gCallDepth]
  split <;> rfl

/-- The first hook of a sequence runs first. -/
theorem runHooks_cons (libc : Libc) (h : Hook) (hooks : List Hook) (s : Globals) :
    runHooks libc (h :: hooks) s = runHooks libc hooks (runHook libc h s) := rfl

/-- The call depth after a run of enters. -/
theorem runHooks_enters_gCallDepth (libc : Libc) (enters : List (Nat × Nat)) :
    ∀ s : Globals, (runHooks libc (enters.map fun a => Hook.enter a.1 a.2) s).gCallDepth =
      s.gCallDepth + enters.length := by
  induction enters with
  | nil =>
    intro s
    simp [runHooks]
  | cons a rest ih =>
    intro s
    rw [List.map_cons, runHooks_cons]
    show (runHooks libc _ (__cyg_profile_func_enter libc a.1 a.2 s)).gCallDepth = _
    rw [ih, enter_gCallDepth, List.length_cons]
    push_cast
    ring

/-- The call depth after a run of exits that does not reach the floor. -/
theorem runHooks_exits_gCallDepth (libc : Libc) (exits : List (Nat × Nat)) :
    ∀ s : Globals, 1 + (exits.length : Int) ≤ s.gCallDepth →
      (runHooks libc (exits.map fun a => Hook.exit a.1 a.2) s).gCallDepth =
        s.gCallDepth - exits.length := by
  induction exits with
  | nil =>
    intro s _
    simp [runHooks]
  | cons a rest ih =>
    intro s hs
    rw [List.length_cons] at hs
    push_cast at hs
    have hexit := exit_gCallDepth libc a.1 a.2 s
    rw [if_neg (by omega)] at hexit
    rw [List.map_cons, runHooks_cons]
    show (runHooks libc _ (__cyg_profile_func_exit libc a.1 a.2 s)).gCallDepth = _
    rw [ih _ (by rw [hexit]; omega), hexit, List.length_cons]
    push_cast
    ring

/-- The call depth after a sequence of hooks in which no exit lacks its enter. -/
theorem runHooks_nesting_gCallDepth (libc : Libc) (hooks : List Hook) :
    ∀ (open_ after : Nat) (s : Globals), (open_ : Int) + 1 ≤ s.gCallDepth →
      nesting hooks open_ = some after →
      (runHooks libc hooks s).gCallDepth = s.gCallDepth - open_ + after := by
  induction hooks with
  | nil =>
    intro open_ after s _ hn
    simp only [nesting, Option.some.injEq] at hn
    subst hn
    simp [runHooks]
  | cons h rest ih =>
    intro open_ after s hs hn
    rw [runHooks_cons]
    cases h with
    | enter f c =>
      simp only [nesting] at hn
      have hstep := enter_gCallDepth libc f c s
      show (runHooks libc rest (__cyg_profile_func_enter libc f c s)).gCallDepth = _
      rw [ih (open_ + 1) after _ (by rw [hstep]; push_cast; omega) hn, hstep]
      push_cast
      ring
    | exit f c =>
      cases open_ with
      | zero => simp [nesting] at hn
      | succ k =>
        simp only [nesting] at hn
        push_cast at hs
        have hstep := exit_gCallDepth libc f c s
        rw [if_neg (by omega)] at hstep
        show (runHooks libc rest (__cyg_profile_func_exit libc f c s)).gCallDepth = _
        rw [ih k after _ (by rw [hstep]; omega) hn, hstep]
        push_cast
        ring

/-- C10: from a call depth `d >= 1` (with `++gCallDepth` unbounded), `N` consecutive
`__cyg_profile_func_enter` calls leave `gCallDepth = d + N`, and `N` following
`__cyg_profile_func_exit` calls bring it back to `d`; more generally every balanced
nesting of enters and exits ends at the depth it started from, so at 1 from the
initial value 1. -/
theorem gCallDepth_enters_then_exits (libc : Libc) (s : Globals)
    (enters exits : List (Nat × Nat)) (hd : 1 ≤ s.gCallDepth)
    (hlen : exits.length = enters.length) :
    (runHooks libc (enters.map fun a => Hook.enter a.1 a.2) s).gCallDepth =
      s.gCallDepth + enters.length ∧
    (runHooks libc (exits.map fun a => Hook.exit a.1 a.2)
      (runHooks libc (enters.map fun a => Hook.enter a.1 a.2) s)).gCallDepth = s.gCallDepth ∧
    (∀ hooks, nesting hooks 0 = some 0 → (runHooks libc hooks s).gCallDepth = s.gCallDepth) ∧
    (s.gCallDepth = 1 → ∀ hooks, nesting hooks 0 = some 0 →
      (runHooks libc hooks s).gCallDepth = 1) := by
  have henter := runHooks_enters_gCallDepth libc enters s
  have hbalanced : ∀ hooks, nesting hooks 0 = some 0 →
      (runHooks libc hooks s).gCallDepth = s.gCallDepth := by
    intro hooks hn
    have h := runHooks_nesting_gCallDepth libc hooks 0 0 s (by push_cast; omega) hn
    rw [h]
    push_cast
    ring
  refine ⟨henter, ?_, hbalanced, ?_⟩
  · rw [runHooks_exits_gCallDepth libc exits _ (by rw [henter, hlen]; omega), henter, hlen]
    ring
  · intro h1 hooks hn
    rw [hbalanced hooks hn, h1]

/-- Witness of C10: two enters and two exits from the initial depth 1. -/
theorem gCallDepth_enters_then_exits_witness :
    (runHooks failingLibc [Hook.enter 10 20, Hook.enter 30 11] sampleGlobals).gCallDepth =
      1 + 2 ∧
    (runHooks failingLibc [Hook.exit 30 11, Hook.exit 10 20]
      (runHooks failingLibc [Hook.enter 10 20, Hook.enter 30 11] sampleGlobals)).gCallDepth = 1 :=
  ⟨(gCallDepth_enters_then_exits failingLibc sampleGlobals [(10, 20), (30, 11)]
      [(30, 11), (10, 20)] (by decide) rfl).1,
   (gCallDepth_enters_then_exits failingLibc sampleGlobals [(10, 20), (30, 11)]
      [(30, 11), (10, 20)] (by decide) rfl).2.1⟩

/-- A hook is the call of `_profileHelper` in `helperState`, followed for an enter by
`++gCallDepth`. -/
theorem runHook_eq_profileHelper (libc : Libc) (s : Globals) (this_fn call_site : Nat) :
    runHook libc (Hook.enter this_fn call_site) s =
      (fun t : Globals => { t with gCallDepth := t.gCallDepth + 1 })
        (_profileHelper libc call_site "called" this_fn
          (helperState (Hook.enter this_fn call_site) s)) ∧
    runHook libc (Hook.exit this_fn call_site) s =
      _profileHelper libc this_fn "returned to" call_site
        (helperState (Hook.exit this_fn call_site) s) :=
  ⟨rfl, rfl⟩

/-- The call depth after one hook, from a depth of at least 1. -/
theorem runHook_gCallDepth_bounds (libc : Libc) (h : Hook) (s : Globals)
    (hd : 1 ≤ s.gCallDepth) :
    1 ≤ (runHook libc h s).gCallDepth ∧ (runHook libc h s).gCallDepth ≤ s.gCallDepth + 1 := by
  cases h with
  | enter f c =>
    show 1 ≤ (__cyg_profile_func_enter libc f c s).gCallDepth ∧
      (__cyg_profile_func_enter libc f c s).gCallDepth ≤ s.gCallDepth + 1
    rw [enter_gCallDepth]
    omega
  | exit f c =>
    show 1 ≤ (__cyg_profile_func_exit libc f c s).gCallDepth ∧
      (__cyg_profile_func_exit libc f c s).gCallDepth ≤ s.gCallDepth + 1
    rw [exit_gCallDepth]
    split <;> omega

/-- The call depth in which a hook formats its line, from a depth of at least 1. -/
theorem helperState_gCallDepth (h : Hook) (s : Globals) (hd : 1 ≤ s.gCallDepth) :
    1 ≤ (helperState h s).gCallDepth := by
  cases h with
  | enter f c => exact hd
  | exit f c =>
    unfold helperState
    simp only
    split
    · exact le_refl 1
    · rename_i hlt
      exact not_lt.mp hlt

/-- The call depth after a sequence of hooks, from a depth of at least 1. -/
theorem runHooks_gCallDepth_bounds (libc : Libc) (hooks : List Hook) :
    ∀ s : Globals, 1 ≤ s.gCallDepth →
      1 ≤ (runHooks libc hooks s).gCallDepth ∧
      (runHooks libc hooks s).gCallDepth ≤ s.gCallDepth + hooks.length := by
  induction hooks with
  | nil =>
    intro s hd
    simp [runHooks, hd]
  | cons h rest ih =>
    intro s hd
    rw [runHooks_cons, List.length_cons]
    obtain ⟨h1, h2⟩ := runHook_gCallDepth_bounds libc h s hd
    obtain ⟨h3, h4⟩ := ih (runHook libc h s) h1
    push_cast
    constructor <;> omega

/-- A sequence of hooks runs its first part, then the rest. -/
theorem runHooks_append (libc : Libc) (pre post : List Hook) (s : Globals) :
    runHooks libc (pre ++ post) s = runHooks libc post (runHooks libc pre s) := by
  simp [runHooks, List.foldl_append]

/-- C11: `gCallDepth >= 1` is an invariant of the call tracer: from a call depth of at
least 1 (the initial value is 1), after every finite sequence of
`__cyg_profile_func_enter` and `__cyg_profile_func_exit` calls in any order, with more
exits than enters or not, `gCallDepth` is at least 1 (and at most the starting depth
plus the number of calls); and every hook of the sequence calls `_profileHelper`, which formats the trace line, in a state whose
`gCallDepth` is at least 1. -/
theorem gCallDepth_ge_one_invariant (libc : Libc) (s : Globals) (hooks : List Hook)
    (hd : 1 ≤ s.gCallDepth) :
    1 ≤ (runHooks libc hooks s).gCallDepth ∧
    (runHooks libc hooks s).gCallDepth ≤ s.gCallDepth + hooks.length ∧
    ∀ pre h post, hooks = pre ++ h :: post →
      1 ≤ (helperState h (runHooks libc pre s)).gCallDepth ∧
      runHooks libc (pre ++ [h]) s =
        match h with
        | Hook.enter this_fn call_site =>
            (fun t : Globals => { t with gCallDepth := t.gCallDepth + 1 })
              (_profileHelper libc call_site "called" this_fn
                (helperState h (runHooks libc pre s)))
        | Hook.exit this_fn call_site =>
            _profileHelper libc this_fn "returned to" call_site
              (helperState h (runHooks libc pre s)) := by
  obtain ⟨h1, h2⟩ := runHooks_gCallDepth_bounds libc hooks s hd
  refine ⟨h1, h2, ?_⟩
  intro pre h post _
  have hpre := (runHooks_gCallDepth_bounds libc pre s hd).1
  refine ⟨helperState_gCallDepth h _ hpre, ?_⟩
  rw [runHooks_append]
  cases h <;> rfl

/-- Witness of C11: one enter and three exits from the initial depth 1. -/
theorem gCallDepth_ge_one_invariant_witness :
    1 ≤ (runHooks failingLibc [Hook.enter 10 20, Hook.exit 10 20, Hook.exit 5 6, Hook.exit 7 8]
      sampleGlobals).gCallDepth ∧
    (runHooks failingLibc [Hook.enter 10 20, Hook.exit 10 20, Hook.exit 5 6, Hook.exit 7 8]
      sampleGlobals).gCallDepth = 1 :=
  ⟨(gCallDepth_ge_one_invariant failingLibc sampleGlobals
      [Hook.enter 10 20, Hook.exit 10 20, Hook.exit 5 6, Hook.exit 7 8] (by decide)).1,
   by decide⟩

/-- The `_profileHelper` function hands `traceLine` to the writer when tracing is enabled
and a destination is recorded, and does nothing otherwise. -/
theorem _profileHelper_eq (libc : Libc) (left : Nat) (middle : String) (right : Nat)
    (s : Globals) :
    _profileHelper libc left middle right s =
      if s.gFunctionTraceEnabled ≠ 0 ∧ s.gLogDestination ≠ eLogDestination.kLogToUndefined then
        callLogString kLogDebug (traceLine libc left middle right s) s
      else s := rfl

/-- A writer other than `_logToTheVoid` appends one write to the calls made. -/
theorem callLogString_events (priority : Nat) (msg : String) (s : Globals)
    (hw : s.gLogString ≠ fpLogTo._logToTheVoid) :
    ∃ e, e.isWrite = true ∧ (callLogString priority msg s).events = s.events ++ [e] := by
  unfold callLogString
  cases hs : s.gLogString with
  | _logToTheVoid => exact absurd hs hw
  | _logToSyslog => exact ⟨Event.syslog priority msg, rfl, rfl⟩
  | _logToFile => exact ⟨Event.fprintf s.gLogFile (msg ++ "\n"), rfl, rfl⟩
  | _logToStderr => exact ⟨Event.fprintf FILE.stderr (msg ++ "\n"), rfl, rfl⟩

/-- C12: `_profileHelper` calls the writer `gLogString`, once and with the trace line, if
and only if `gFunctionTraceEnabled` is non-zero and the recorded destination is not
`kLogToUndefined`, and otherwise changes nothing; so with a writer other than
`_logToTheVoid` a line is written exactly in that case. Changing the global level and
the scope table (every scope level, every site flag) changes nothing in what the hook
does: the result is the same state with the same calls made. -/
theorem _profileHelper_writes_iff (libc : Libc) (left : Nat) (middle : String) (right : Nat)
    (s : Globals) :
    (s.gFunctionTraceEnabled ≠ 0 ∧ s.gLogDestination ≠ eLogDestination.kLogToUndefined →
      _profileHelper libc left middle right s =
        callLogString kLogDebug (traceLine libc left middle right s) s) ∧
    (¬ (s.gFunctionTraceEnabled ≠ 0 ∧ s.gLogDestination ≠ eLogDestination.kLogToUndefined) →
      _profileHelper libc left middle right s = s) ∧
    (s.gLogString ≠ fpLogTo._logToTheVoid →
      ((∃ e, e.isWrite = true ∧
          (_profileHelper libc left middle right s).events = s.events ++ [e]) ↔
        (s.gFunctionTraceEnabled ≠ 0 ∧
          s.gLogDestination ≠ eLogDestination.kLogToUndefined))) ∧
    (∀ (level : Nat) (table : Nat → gLogEntry),
      _profileHelper libc left middle right { s with gLogLevel := level, gLog := table } =
        { _profileHelper libc left middle right s with gLogLevel := level, gLog := table }) := by
  refine ⟨?_, ?_, ?_, ?_⟩
  · intro hc
    rw [_profileHelper_eq, if_pos hc]
  · intro hc
    rw [_profileHelper_eq, if_neg hc]
  · intro hw
    constructor
    · intro hex
      by_contra hc
      obtain ⟨e, _, he⟩ := hex
      rw [_profileHelper_eq, if_neg hc] at he
      have hlen := congrArg List.length he
      simp at hlen
    · intro hc
      rw [_profileHelper_eq, if_pos hc]
      exact callLogString_events kLogDebug _ s hw
  · intro level table
    obtain ⟨g, w, d, l, nm, f, dl, t, c, ev⟩ := s
    simp only [_profileHelper_eq]
    split
    · cases w <;> rfl
    · rfl

/-- Witness of C12: with tracing on and stderr recorded, the hook writes its line at
level 0 as it does at level 7. -/
theorem _profileHelper_writes_iff_witness :
    (_profileHelper failingLibc 10 "called" 20
      { sampleGlobals with gFunctionTraceEnabled := 1,
                           gLogDestination := eLogDestination.kLogToStderr,
                           gLogLevel := 0 }).events =
    [Event.fprintf FILE.stderr ". 0x0000000a() called 0x00000014()\n"] := by
  have h := (_profileHelper_writes_iff failingLibc 10 "called" 20
    { sampleGlobals with gFunctionTraceEnabled := 1,
                         gLogDestination := eLogDestination.kLogToStderr,
                         gLogLevel := 0 }).1 ⟨by decide, by decide⟩
  rw [h]
  decide

/-- With a precision that is not negative, `"%.*s"` prints that many dots of `leader`,
and all 90 of them from 90 on. -/
theorem precisionString_leader (d : Int) (hd : 0 ≤ d) :
    precisionString d leader = dots (min d.toNat 90) := by
  unfold precisionString leader dots
  rw [if_neg (not_lt.mpr hd)]
  simp only [List.take_replicate]

/-- The `_profileHelper` function changes nothing but the list of calls made. -/
theorem _profileHelper_eq_with_events (libc : Libc) (left : Nat) (middle : String)
    (right : Nat) (s : Globals) :
    ∃ ev, _profileHelper libc left middle right s = { s with events := ev } := by
  rw [_profileHelper_eq]
  split
  · exact callLogString_eq_with_events _ _ s
  · exact ⟨s.events, rfl⟩

/-- A hook changes nothing but the list of calls made and the call depth. -/
theorem runHook_eq_with (libc : Libc) (h : Hook) (s : Globals) :
    ∃ ev d, runHook libc h s = { s with events := ev, gCallDepth := d } := by
  cases h with
  | enter f c =>
    obtain ⟨ev, hev⟩ := _profileHelper_eq_with_events libc c "called" f s
    refine ⟨ev, s.gCallDepth + 1, ?_⟩
    show __cyg_profile_func_enter libc f c s = _
    unfold __cyg_profile_func_enter
    rw [hev]
  | exit f c =>
    obtain ⟨ev, hev⟩ := _profileHelper_eq_with_events libc f "returned to" c
      (helperState (Hook.exit f c) s)
    refine ⟨ev, (helperState (Hook.exit f c) s).gCallDepth, ?_⟩
    rw [(runHook_eq_profileHelper libc s f c).2, hev]
    unfold helperState
    simp only
    split <;> rfl

/-- A sequence of hooks changes nothing but the list of calls made and the call depth. -/
theorem runHooks_eq_with (libc : Libc) (hooks : List Hook) :
    ∀ s : Globals, ∃ ev d, runHooks libc hooks s = { s with events := ev, gCallDepth := d } := by
  induction hooks with
  | nil =>
    intro s
    exact ⟨s.events, s.gCallDepth, rfl⟩
  | cons h rest ih =>
    intro s
    obtain ⟨ev1, d1, h1⟩ := runHook_eq_with libc h s
    obtain ⟨ev2, d2, h2⟩ := ih (runHook libc h s)
    refine ⟨ev2, d2, ?_⟩
    rw [runHooks_cons, h2, h1]

/-- The name `addrToString` gives an address depends on the state through `gDLhandle`
only. -/
theorem addrToString_congr (libc : Libc) (addr : Nat) (s t : Globals)
    (h : t.gDLhandle = s.gDLhandle) : addrToString libc addr t = addrToString libc addr s := by
  unfold addrToString
  rw [h]

/-- C14: with tracing enabled and a destination recorded, for a function entered at
call depth `d >= 1`, the "called" line `__cyg_profile_func_enter` hands to the writer
and the "returned to" line the matching `__cyg_profile_func_exit` hands to the writer,
after any balanced nesting of enters and exits in between, both start with
`min(d, 90)` dots of `leader` followed by a space; the enter leaves the depth at
`d + 1`, one more dot for the next level up to the 90 dots of `leader`. -/
theorem trace_lines_same_indentation (libc : Libc) (s : Globals) (this_fn call_site : Nat)
    (inner : List Hook) (hon : s.gFunctionTraceEnabled ≠ 0)
    (hdest : s.gLogDestination ≠ eLogDestination.kLogToUndefined)
    (hd : 1 ≤ s.gCallDepth) (hbal : nesting inner 0 = some 0) :
    __cyg_profile_func_enter libc this_fn call_site s =
      { callLogString kLogDebug
          (snprintf 256 (dots (min s.gCallDepth.toNat 90) ++ " " ++
            addrToString libc call_site s ++ "() " ++ "called" ++ " " ++
            addrToString libc this_fn s ++ "()")) s
        with gCallDepth := s.gCallDepth + 1 } ∧
    __cyg_profile_func_exit libc this_fn call_site
        (runHooks libc inner (__cyg_profile_func_enter libc this_fn call_site s)) =
      callLogString kLogDebug
        (snprintf 256 (dots (min s.gCallDepth.toNat 90) ++ " " ++
          addrToString libc this_fn s ++ "() " ++ "returned to" ++ " " ++
          addrToString libc call_site s ++ "()"))
        { runHooks libc inner (__cyg_profile_func_enter libc this_fn call_site s)
          with gCallDepth := s.gCallDepth } := by
  have hdots := precisionString_leader s.gCallDepth (by omega)
  have henter : __cyg_profile_func_enter libc this_fn call_site s =
      { callLogString kLogDebug
          (snprintf 256 (dots (min s.gCallDepth.toNat 90) ++ " " ++
            addrToString libc call_site s ++ "() " ++ "called" ++ " " ++
            addrToString libc this_fn s ++ "()")) s
        with gCallDepth := s.gCallDepth + 1 } := by
    obtain ⟨ev, hev⟩ := callLogString_eq_with_events kLogDebug
      (snprintf 256 (dots (min s.gCallDepth.toNat 90) ++ " " ++
        addrToString libc call_site s ++ "() " ++ "called" ++ " " ++
        addrToString libc this_fn s ++ "()")) s
    unfold __cyg_profile_func_enter
    rw [_profileHelper_eq, if_pos ⟨hon, hdest⟩]
    unfold traceLine
    rw [hdots, hev]
  refine ⟨henter, ?_⟩
  obtain ⟨ev1, d1, h1⟩ := runHook_eq_with libc (Hook.enter this_fn call_site) s
  have h1' : __cyg_profile_func_enter libc this_fn call_site s =
      { s with events := ev1, gCallDepth := d1 } := h1
  obtain ⟨ev2, d2, h2⟩ := runHooks_eq_with libc inner
    (__cyg_profile_func_enter libc this_fn call_site s)
  have hdepth1 := enter_gCallDepth libc this_fn call_site s
  have hdepth2 := runHooks_nesting_gCallDepth libc inner 0 0
    (__cyg_profile_func_enter libc this_fn call_site s) (by rw [hdepth1]; push_cast; omega) hbal
  rw [hdepth1] at hdepth2
  have hd2 : d2 = s.gCallDepth + 1 := by
    have := congrArg Globals.gCallDepth h2
    rw [hdepth2] at this
    simp only at this
    push_cast at this
    omega
  rw [h2, h1']
  subst hd2
  unfold __cyg_profile_func_exit
  simp only
  have hno : ¬ (s.gCallDepth + 1 - 1 < 1) := by omega
  rw [if_neg hno, _profileHelper_eq, if_pos ⟨hon, hdest⟩]
  unfold traceLine
  have hsimp : s.gCallDepth + 1 - 1 = s.gCallDepth := by omega
  simp only [hsimp, hdots]
  rfl

/-- Witness of C14: a function entered at depth 3 that calls one other function. -/
theorem trace_lines_same_indentation_witness :
    (__cyg_profile_func_exit failingLibc 10 20
        (runHooks failingLibc [Hook.enter 30 11, Hook.exit 30 11]
          (__cyg_profile_func_enter failingLibc 10 20
            { sampleGlobals with gFunctionTraceEnabled := 1, gCallDepth := 3,
                                 gLogDestination := eLogDestination.kLogToStderr }))).events =
      [Event.fprintf FILE.stderr "... 0x00000014() called 0x0000000a()\n",
       Event.fprintf FILE.stderr ".... 0x0000000b() called 0x0000001e()\n",
       Event.fprintf FILE.stderr ".... 0x0000001e() returned to 0x0000000b()\n",
       Event.fprintf FILE.stderr "... 0x0000000a() returned to 0x00000014()\n"] := by
  rw [(trace_lines_same_indentation failingLibc
    { sampleGlobals with gFunctionTraceEnabled := 1, gCallDepth := 3,
                         gLogDestination := eLogDestination.kLogToStderr }
    10 20 [Hook.enter 30 11, Hook.exit 30 11] (by decide) (by decide) (by decide) rfl).2]
  decide

/-- The characters `snprintf` leaves in the buffer. -/
theorem snprintf_data (size : Nat) (text : String) :
    (snprintf size text).data = text.data.take (size - 1) := rfl

/-- The string `snprintf` leaves in a buffer of `size` bytes is shorter than `size`. -/
theorem snprintf_length_le (size : Nat) (text : String) :
    (snprintf size text).length ≤ size - 1 := by
  show (text.data.take (size - 1)).length ≤ size - 1
  rw [List.length_take]
  exact Nat.min_le_left _ _

/-- A text that fits is left whole by `snprintf`. -/
theorem snprintf_of_fits (size : Nat) (text : String) (h : text.length ≤ size - 1) :
    snprintf size text = text := by
  apply String.ext
  rw [snprintf_data]
  exact List.take_of_length_le h

/-- The buffer of `_logWithLocation` when the rendering leaves more than 10 bytes. -/
theorem locatedMsg_of_short (inFile : String) (atLine : Nat) (rendered : String)
    (h : rendered.length < 245) :
    locatedMsg inFile atLine rendered =
      rendered ++ String.mk ((locationSuffix inFile atLine).data.take (254 - rendered.length)) := by
  unfold locatedMsg
  have hrem : ((256 : Int) - (rendered.length : Int) - 1) > 10 := by omega
  simp only [hrem, if_true]
  have htoNat : (rendered.length : Int).toNat = rendered.length := Int.toNat_natCast _
  have hrem2 : ((256 : Int) - (rendered.length : Int) - 1).toNat = 255 - rendered.length := by
    omega
  rw [htoNat, hrem2, snprintf_of_fits 256 rendered (by omega)]
  apply String.ext
  simp only [String.data_append, snprintf_data]
  have hwhole : rendered.data.take rendered.length = rendered.data :=
    List.take_of_length_le (le_refl _)
  have hsub : 255 - rendered.length - 1 = 254 - rendered.length := by omega
  rw [hwhole, hsub]
  rfl

/-- The buffer of `_logWithLocation` when the rendering leaves 10 bytes or fewer. -/
theorem locatedMsg_of_long (inFile : String) (atLine : Nat) (rendered : String)
    (h : 245 ≤ rendered.length) :
    locatedMsg inFile atLine rendered = String.mk (rendered.data.take 255) := by
  unfold locatedMsg
  have hrem : ¬ (((256 : Int) - (rendered.length : Int) - 1) > 10) := by omega
  simp only [hrem, if_false]
  rfl

/-- Counterexample of C13: a primary message of 244 characters leaves
`remaining = 11 > 10`, so the suffix is written, but into 11 bytes: of
`" (logging.c:152)"` only the 10 characters `" (logging."` reach the writer. -/
theorem locatedMsg_suffix_cut_at_244 :
    (256 : Int) - ((String.mk (List.replicate 244 'a')).length : Int) - 1 > 10 ∧
    locatedMsg "logging.c" 152 (String.mk (List.replicate 244 'a')) =
      String.mk (List.replicate 244 'a') ++ " (logging." ∧
    locatedMsg "logging.c" 152 (String.mk (List.replicate 244 'a')) ≠
      String.mk (List.replicate 244 'a') ++ " (logging.c:152)" := by
  have hlen : (String.mk (List.replicate 244 'a')).length = 244 := by
    show (List.replicate 244 'a').length = 244
    exact List.length_replicate _ _
  have hcut : String.mk ((locationSuffix "logging.c" 152).data.take (254 - 244)) =
      " (logging." := by decide
  have hcode : locatedMsg "logging.c" 152 (String.mk (List.replicate 244 'a')) =
      String.mk (List.replicate 244 'a') ++ " (logging." := by
    rw [locatedMsg_of_short "logging.c" 152 _ (by rw [hlen]; decide), hlen, hcut]
  refine ⟨by rw [hlen]; decide, hcode, ?_⟩
  rw [hcode]
  intro h
  have hl := congrArg String.length h
  rw [String.length_append, String.length_append, hlen] at hl
  revert hl
  decide

/-- C13, amended: in `_logWithLocation` with its 256-byte buffer, for a primary message
of full rendered length `L`: if `L >= 245` (`remaining <= 10`) the text handed to the
writer is the primary message cut to 255 characters, with nothing of the suffix;
if `L < 245` it is the whole primary message followed by the first `254 - L`
characters of the suffix `" (file:line)"`, that is by the whole suffix when the suffix
has at most `254 - L` characters and by a part of it otherwise; in every case the
text has at most 255 characters, and both writes (offset and bytes written, the NUL
included) end inside the 256 bytes of the buffer. -/
theorem locatedMsg_bounds (inFile : String) (atLine : Nat) (rendered : String) :
    (245 ≤ rendered.length →
      locatedMsg inFile atLine rendered = String.mk (rendered.data.take 255)) ∧
    (rendered.length < 245 →
      locatedMsg inFile atLine rendered = rendered ++
        String.mk ((locationSuffix inFile atLine).data.take (254 - rendered.length))) ∧
    (rendered.length < 245 →
      (locationSuffix inFile atLine).length ≤ 254 - rendered.length →
      locatedMsg inFile atLine rendered = rendered ++ locationSuffix inFile atLine) ∧
    (locatedMsg inFile atLine rendered).length ≤ 255 ∧
    (∀ w ∈ locatedMsgWrites inFile atLine rendered, w.1 + w.2 ≤ 256) ∧
    (∀ s priority, _logWithLocation inFile atLine priority rendered s =
      callLogString priority (locatedMsg inFile atLine rendered) s) := by
  refine ⟨locatedMsg_of_long inFile atLine rendered,
    locatedMsg_of_short inFile atLine rendered, ?_, ?_, ?_, fun _ _ => rfl⟩
  · intro hL hfit
    rw [locatedMsg_of_short inFile atLine rendered hL]
    have hwhole : (locationSuffix inFile atLine).data.take (254 - rendered.length) =
        (locationSuffix inFile atLine).data := List.take_of_length_le hfit
    rw [hwhole]
  · by_cases hL : rendered.length < 245
    · rw [locatedMsg_of_short inFile atLine rendered hL, String.length_append]
      have htake : (String.mk ((locationSuffix inFile atLine).data.take
          (254 - rendered.length))).length ≤ 254 - rendered.length := by
        show ((locationSuffix inFile atLine).data.take (254 - rendered.length)).length ≤ _
        rw [List.length_take]
        exact Nat.min_le_left _ _
      omega
    · rw [locatedMsg_of_long inFile atLine rendered (by omega)]
      show (rendered.data.take 255).length ≤ 255
      rw [List.length_take]
      exact Nat.min_le_left _ _
  · intro w hw
    unfold locatedMsgWrites at hw
    have h0 := snprintf_length_le 256 rendered
    by_cases hL : rendered.length < 245
    · have hrem : ((256 : Int) - (rendered.length : Int) - 1) > 10 := by omega
      have hrem2 : ((256 : Int) - (rendered.length : Int) - 1).toNat = 255 - rendered.length := by
        omega
      have h1 := snprintf_length_le (255 - rendered.length) (locationSuffix inFile atLine)
      simp only [hrem, if_true, hrem2, Int.toNat_natCast, List.mem_cons, List.mem_singleton,
        List.not_mem_nil, or_false] at hw
      rcases hw with hw | hw
      · rw [hw]
        show 0 + ((snprintf 256 rendered).length + 1) ≤ 256
        omega
      · rw [hw]
        show rendered.length +
          ((snprintf (255 - rendered.length) (locationSuffix inFile atLine)).length + 1) ≤ 256
        omega
    · have hrem : ¬ (((256 : Int) - (rendered.length : Int) - 1) > 10) := by omega
      simp only [hrem, if_false, List.mem_singleton] at hw
      rw [hw]
      show 0 + ((snprintf 256 rendered).length + 1) ≤ 256
      omega

/-- Witness of C13, amended: a short message keeps its whole suffix. -/
theorem locatedMsg_bounds_witness :
    locatedMsg "logging.c" 152 "disk full" = "disk full (logging.c:152)" ∧
    (locatedMsg "logging.c" 152 "disk full").length ≤ 255 := by
  have h := locatedMsg_bounds "logging.c" 152 "disk full"
  refine ⟨?_, h.2.2.2.1⟩
  rw [h.2.2.1 (by decide) (by decide)]
  decide

/-- A last line without a newline, shorter than the room, is stored whole by `fgets`,
which meets the end of the file doing so. -/
theorem fgetsScan_unterminated (content : List Char) :
    ∀ room : Nat, '\n' ∉ content → content.length < room →
      fgetsScan room content = (content, [], true) := by
  induction content with
  | nil =>
    intro room _ hroom
    cases room with
    | zero => exact absurd hroom (Nat.lt_irrefl 0)
    | succ r => rfl
  | cons c rest ih =>
    intro room hnl hroom
    cases room with
    | zero => exact absurd hroom (Nat.not_lt_zero _)
    | succ r =>
      have hc : c ≠ '\n' := fun h => hnl (by rw [h]; exact List.mem_cons_self _ _)
      have hrest : '\n' ∉ rest := fun h => hnl (List.mem_cons_of_mem _ h)
      have hlen : rest.length < r := by
        simp only [List.length_cons] at hroom
        omega
      simp only [fgetsScan, hc, if_false, ih r hrest hlen]

/-- A file that is one line without a newline gives no argument: `fgets` stores the
line, `feof` is then true, and the loop of `parseConfigFile` ends before its body. -/
theorem parseConfigFile_of_unterminated (malloc : Nat → Bool) (gExecName : String)
    (content line : List Char) (hnl : '\n' ∉ content) (hlen : content.length < 1023) :
    parseConfigFile malloc gExecName content line = Except.ok [gExecName] := by
  unfold parseConfigFile
  simp only [parseConfigLoop, fgetsScan_unterminated content 1023 hnl hlen]
  split <;> rfl

/-- What `fgets` stores and what it leaves make up the file it was given. -/
theorem fgetsScan_length (stream : List Char) :
    ∀ room : Nat, (fgetsScan room stream).1.length + (fgetsScan room stream).2.1.length =
      stream.length := by
  induction stream with
  | nil =>
    intro room
    cases room <;> rfl
  | cons c rest ih =>
    intro room
    cases room with
    | zero => simp [fgetsScan]
    | succ r =>
      by_cases hc : c = '\n'
      · simp [fgetsScan, hc]
        omega
      · have h := ih r
        simp only [fgetsScan, hc, if_false, List.length_cons]
        omega

/-- The body of the loop does not use the fuel of the embedding. -/
theorem parseConfigLine_ne_outOfFuel (malloc : Nat → Bool) (line : List Char)
    (argv : List String) :
    parseConfigLine malloc line argv ≠ Except.error Fault.outOfFuel := by
  intro h
  unfold parseConfigLine at h
  simp only at h
  split at h
  · rename_i e hkey
    injection h with h
    subst h
    split at hkey
    · cases hkey
    · split at hkey
      · cases hkey
      · split at hkey
        · cases hkey
        · split at hkey
          · split at hkey <;> cases hkey
          · cases hkey
  · split at h
    · cases h
    · split at h
      · cases h
      · split at h <;> cases h

/-- The loop of `parseConfigFile` ends: with more fuel than the file has characters, the
fuel does not run out. -/
theorem parseConfigLoop_fuel (malloc : Nat → Bool) (fuel : Nat) :
    ∀ (stream line : List Char) (argv : List String), stream.length < fuel →
      parseConfigLoop malloc fuel stream line argv ≠ Except.error Fault.outOfFuel := by
  induction fuel with
  | zero =>
    intro stream line argv h
    exact absurd h (Nat.not_lt_zero _)
  | succ n ih =>
    intro stream line argv h
    simp only [parseConfigLoop]
    split
    · intro hc
      cases hc
    · rename_i hchunk
      split
      · intro hc
        cases hc
      · split
        · rename_i e hline
          intro hc
          injection hc with hc
          subst hc
          exact parseConfigLine_ne_outOfFuel malloc _ argv hline
        · apply ih
          have hlen := fgetsScan_length stream (1024 - 1)
          have hpos : 0 < (fgetsScan (1024 - 1) stream).1.length :=
            List.length_pos.mpr hchunk
          omega

/-- The embedding of `parseConfigFile` gives itself enough fuel. -/
theorem parseConfigFile_ne_outOfFuel (malloc : Nat → Bool) (gExecName : String)
    (content line : List Char) :
    parseConfigFile malloc gExecName content line ≠ Except.error Fault.outOfFuel :=
  parseConfigLoop_fuel malloc (content.length + 1) content line [gExecName]
    (Nat.lt_succ_self _)

/-- C15, the code at the failing input: for a configuration file holding `debug=3`
without a newline at its end, `parseConfigFile` builds an argument vector that holds
`argv[0]` alone: the line, which has the key `debug`, contributes neither `--debug`
nor `3`. The same line contributes when a newline ends it: `ab=xyzxyz` with its
newline gives `--ab` and `xyzxyz`, and without it nothing. -/
theorem parseConfigFile_drops_unterminated_last_line :
    parseConfigFile (fun _ => true) "daemon" "debug=3".toList (List.replicate 1024 NUL) =
      Except.ok ["daemon"] ∧
    ((strtok_r ("debug=3".toList ++ [NUL]) 0).1 = some 0 ∧
      cString (strtok_r ("debug=3".toList ++ [NUL]) 0).2.1 0 = "debug".toList) ∧
    parseConfigFile (fun _ => true) "daemon" "ab=xyzxyz\n".toList (List.replicate 1024 NUL) =
      Except.ok ["daemon", "--ab", "xyzxyz"] ∧
    parseConfigFile (fun _ => true) "daemon" "ab=xyzxyz".toList (List.replicate 1024 NUL) =
      Except.ok ["daemon"] :=
  ⟨parseConfigFile_of_unterminated _ _ _ _ (by decide) (by decide), ⟨by decide, by decide⟩,
    rfl, parseConfigFile_of_unterminated _ _ _ _ (by decide) (by decide)⟩

/-- Skipping `m` characters of a run that holds no NUL leaves the rest of the run, and the
NUL that ends it is still ahead. -/
theorem takeWhile_drop_of_le (l : List Char) :
    ∀ m : Nat, m ≤ (l.takeWhile (fun c => c ≠ NUL)).length →
      (l.drop m).takeWhile (fun c => c ≠ NUL) = (l.takeWhile (fun c => c ≠ NUL)).drop m ∧
      (NUL ∈ l → NUL ∈ l.drop m) := by
  induction l with
  | nil =>
    intro m _
    simp
  | cons c rest ih =>
    intro m hm
    cases m with
    | zero => simp
    | succ k =>
      by_cases hc : c = NUL
      · have hnil : (c :: rest).takeWhile (fun c => c ≠ NUL) = [] :=
          List.takeWhile_cons_of_neg (by simp [hc])
        rw [hnil] at hm
        exact absurd hm (Nat.not_succ_le_zero k)
      · have hcons : (c :: rest).takeWhile (fun c => c ≠ NUL) =
            c :: rest.takeWhile (fun c => c ≠ NUL) :=
          List.takeWhile_cons_of_pos (by simp [hc])
        rw [hcons] at hm ⊢
        have hk : k ≤ (rest.takeWhile (fun c => c ≠ NUL)).length :=
          Nat.le_of_succ_le_succ hm
        obtain ⟨h1, h2⟩ := ih k hk
        refine ⟨by rw [List.drop_succ_cons, List.drop_succ_cons, h1], ?_⟩
        intro hmem
        rw [List.drop_succ_cons]
        apply h2
        cases hmem with
        | head => exact absurd rfl hc
        | tail _ h => exact h

/-- For a key of three characters or more, `strlen(key + 2 + 1)` is the length of the key
less three. -/
theorem strlen_key_plus_3 (buf : List Char) (key : Nat) (hnul : NUL ∈ buf.drop key)
    (hkey : 3 ≤ (cString buf key).length) :
    strlen buf (key + 2 + 1) = some ((cString buf key).length - 3) := by
  obtain ⟨h1, h2⟩ := takeWhile_drop_of_le (buf.drop key) 3 hkey
  have hdrop : buf.drop (key + 2 + 1) = (buf.drop key).drop 3 := by
    rw [List.drop_drop]
  unfold strlen cString
  rw [hdrop, if_pos (h2 hnul), h1, List.length_drop]

/-- C16, the code at the failing input: for the line `debug=3`, whose key `debug` needs
`strlen(key) + 3 = 8` bytes, `malloc(strlen(key + 2 + 1))` asks for `strlen("ug") = 2`
bytes and `strcpy` and `strcat` then write 8 bytes into them; and for the line
`ab=xyzxyz` the size is computed from the bytes after the NUL that ends the key `ab`:
it is 6, the length of the value. -/
theorem parseConfigLine_option_buffer_too_small :
    parseConfigLine (fun _ => true) ("debug=3\n".toList ++ List.replicate 1016 NUL) ["daemon"] =
      Except.error (Fault.heapOverflow 2 8) ∧
    (cString (strtok_r ("debug=3\n".toList ++ [NUL]) 0).2.1 0 = "debug".toList ∧
      strlen (strtok_r (strtok_r ("debug=3\n".toList ++ [NUL]) 0).2.1
        (strtok_r ("debug=3\n".toList ++ [NUL]) 0).2.2).2.1 (0 + 2 + 1) = some 2) ∧
    (cString (strtok_r ("ab=xyzxyz\n".toList ++ [NUL]) 0).2.1 0 = "ab".toList ∧
      strlen (strtok_r (strtok_r ("ab=xyzxyz\n".toList ++ [NUL]) 0).2.1
        (strtok_r ("ab=xyzxyz\n".toList ++ [NUL]) 0).2.2).2.1 (0 + 2 + 1) = some 6) := by
  exact ⟨rfl, ⟨by decide, by decide⟩, by decide, by decide⟩

end DaemonSkeleton
